import Mathlib

/-!
# Tiny Commander (`tyc.c`): panel model, sort engine and file operations

A shallow embedding of `src/tyc.c`.

* C strings are values of `String`; every `Char` stands for one byte.
* The static array `FileEntry files[MAX_FILES]` of a panel is a total function
  `Nat → FileEntry` (static storage starts zeroed, entries past `num_files`
  keep whatever an earlier listing left there).
* The operating system is a parameter: a record `Sys σ` of the library calls
  the program makes, over an arbitrary file-system state `σ`. Every call the
  program issues is appended to `State.trace`.
* `display_error` appends its message to `State.errors`; the key press it waits
  for is not part of the model.
-/

namespace Tyc

/-! ## Constants and data structures -/

def MAX_PATH_LEN : Nat := 1024

def MAX_FILENAME_LEN : Nat := 256

def MAX_COMMAND_LEN : Nat := 1024

def MAX_FILES : Nat := 1000

/-- The `FileEntry` struct: `off_t size` and `time_t mtime` are signed 64-bit
integers, `is_dir` holds the truth value of `S_ISDIR`. -/
structure FileEntry where
  name : String
  size : Int
  mode : Nat
  mtime : Int
  is_dir : Bool
deriving DecidableEq

/-- A zeroed `FileEntry`, the content of static storage at program start. -/
def FileEntry.zero : FileEntry := ⟨"", 0, 0, 0, false⟩

/-- The `Panel` struct. `selected` and `scroll_pos` are C `int`s; `num_files`,
`sort_by` and `sort_order` are C `int`s that the program only ever sets to
non-negative values. -/
structure Panel where
  current_path : String
  files : Nat → FileEntry
  num_files : Nat
  selected : Int
  scroll_pos : Int
  sort_by : Nat
  sort_order : Nat

/-- The entries `files[0 .. num_files-1]` that the panel displays. -/
def Panel.listing (p : Panel) : List FileEntry :=
  (List.range p.num_files).map p.files

/-- The entry `files[selected]` read by the dispatcher. -/
def Panel.selected_file (p : Panel) : FileEntry :=
  p.files p.selected.toNat

/-- Values of the pointers `&left_panel` and `&right_panel`. -/
inductive PanelRef
  | left
  | right
deriving DecidableEq

/-- The other panel: `(p == &left_panel) ? &right_panel : &left_panel`. -/
def PanelRef.other : PanelRef → PanelRef
  | .left => .right
  | .right => .left

/-- The fields of `struct stat` that the program reads. -/
structure Stat where
  st_size : Int
  st_mode : Nat
  st_mtime : Int
deriving DecidableEq

/-- The macro `S_ISDIR(m)`: `(m & 0170000) == 0040000`. -/
def S_ISDIR (m : Nat) : Bool := decide (m / 4096 % 16 = 4)

/-- Library calls that reach the file system, as recorded in the trace. -/
inductive Syscall
  | opendir (path : String)
  | stat (path : String)
  | realpath (path : String)
  | rename (src dst : String)
  | fopen_rb (path : String)
  | fopen_wb (path : String)
  | chmod (path : String) (mode : Nat)
  | unlink (path : String)
  | rmdir (path : String)
  | system (command : String)
deriving DecidableEq

/-- The operating system as seen by `tyc.c`, over a file-system state `σ`.
A result `none` (or `false`) is the failure return of the C call.
`opendir` yields the names that the successive `readdir` calls return;
`fread_all` yields the bytes that the `fread` calls on the open source stream
return in total. -/
structure Sys (σ : Type) where
  getcwd : σ → String
  getenv : σ → String → Option String
  opendir : σ → String → Option (List String)
  stat : σ → String → Option Stat
  realpath : σ → String → Option String
  rename : σ → String → String → Option σ
  fopen_rb : σ → String → Bool
  fopen_wb : σ → String → Option σ
  fread_all : σ → String → List Nat
  fwrite : σ → String → List Nat → σ
  chmod : σ → String → Nat → σ
  unlink : σ → String → Option σ
  rmdir : σ → String → Option σ
  system : σ → String → σ

/-- The global variables of the program together with the outside world.
`overflow` is set once the program has copied a string past the end of a
buffer; C leaves the behaviour undefined from there on, and the rest of the
state then no longer describes the program. -/
structure State (σ : Type) where
  left_panel : Panel
  right_panel : Panel
  active_panel : PanelRef
  fs : σ
  trace : List Syscall
  errors : List String
  exited : Bool
  overflow : Bool

/-- Dereference of a panel pointer. -/
def State.panel {σ : Type} (s : State σ) : PanelRef → Panel
  | .left => s.left_panel
  | .right => s.right_panel

/-- Store through a panel pointer. -/
def State.set_panel {σ : Type} (s : State σ) (r : PanelRef) (p : Panel) : State σ :=
  match r with
  | .left => { s with left_panel := p }
  | .right => { s with right_panel := p }

/-- Record one library call in the trace. -/
def State.call {σ : Type} (s : State σ) (c : Syscall) : State σ :=
  { s with trace := s.trace ++ [c] }

/-- The key codes returned by `getch` that `handle_input` distinguishes. -/
inductive Key
  | KEY_UP
  | KEY_DOWN
  | KEY_LEFT
  | KEY_F (n : Nat)
  | ch (c : Char)
  | other (code : Nat)
deriving DecidableEq

/-! ## String helpers -/

/-- Result buffer of `snprintf(buf, size, ...)` and of `strncpy` followed by a
terminator: at most `size - 1` bytes are kept. -/
def snprintf (size : Nat) (s : String) : String :=
  ⟨s.data.take (size - 1)⟩

/-- The format `"%s/%s"`. -/
def path_join (dir name : String) : String :=
  snprintf MAX_PATH_LEN (dir ++ "/" ++ name)

/-- ASCII `tolower` on a byte value. -/
def tolower (c : Nat) : Nat :=
  if 65 ≤ c ∧ c ≤ 90 then c + 32 else c

/-- The byte loop of `strcasecmp`: the end of a list is the terminating NUL. -/
def strcasecmp_bytes : List Nat → List Nat → Int
  | [], s2 => 0 - (tolower (s2.headD 0) : Int)
  | c1 :: r1, s2 =>
    if c1 = 0 ∨ tolower c1 ≠ tolower (s2.headD 0) then
      (tolower c1 : Int) - (tolower (s2.headD 0) : Int)
    else strcasecmp_bytes r1 s2.tail

/-- The C library `strcasecmp`. -/
def strcasecmp (a b : String) : Int :=
  strcasecmp_bytes (a.data.map Char.toNat) (b.data.map Char.toNat)

/-- Conversion of a 64-bit difference to the `int` return type. -/
def to_int32 (x : Int) : Int :=
  (x + 2147483648) % 4294967296 - 2147483648

/-! ## Sort engine -/

/-- The comparator `file_compare`. It reads `sort_by` and `sort_order` through
the global `active_panel`, which is the first argument here. -/
def file_compare (active_panel : Panel) (fa fb : FileEntry) : Int :=
  if fa.name = ".." then -1
  else if fb.name = ".." then 1
  else if active_panel.sort_by = 0 then
    if fa.is_dir ∧ ¬ fb.is_dir then -1
    else if ¬ fa.is_dir ∧ fb.is_dir then 1
    else if active_panel.sort_order ≠ 0 then - strcasecmp fa.name fb.name
    else strcasecmp fa.name fb.name
  else if active_panel.sort_by = 1 then
    if fa.is_dir ∧ ¬ fb.is_dir then -1
    else if ¬ fa.is_dir ∧ fb.is_dir then 1
    else if active_panel.sort_order ≠ 0 then to_int32 (fb.size - fa.size)
    else to_int32 (fa.size - fb.size)
  else
    if fa.is_dir ∧ ¬ fb.is_dir then -1
    else if ¬ fa.is_dir ∧ fb.is_dir then 1
    else if active_panel.sort_order ≠ 0 then to_int32 (fb.mtime - fa.mtime)
    else to_int32 (fa.mtime - fb.mtime)

/-- Insertion step of the sorting model: `x` goes before the first element
that it does not compare greater than. -/
def insert_by {α : Type} (compar : α → α → Int) (x : α) : List α → List α
  | [] => [x]
  | y :: ys => if compar x y ≤ 0 then x :: y :: ys else y :: insert_by compar x ys

/-- Model of the C library `qsort`. The C standard fixes neither the algorithm
nor the order of elements that compare equal; the model is a stable insertion
sort (elements that compare equal keep their input order, as with the merge
sort of glibc). -/
def qsort {α : Type} (compar : α → α → Int) : List α → List α
  | [] => []
  | x :: xs => insert_by compar x (qsort compar xs)

/-- The function `sort_files`: `qsort(panel->files + 1, panel->num_files - 1, ...)`
with `file_compare`, which consults the active panel. For `num_files = 0` the C
call is undefined (element count `-1`); the model leaves the array alone there. -/
def sort_files (active_panel panel : Panel) : Panel :=
  let sorted := qsort (file_compare active_panel)
    ((List.range (panel.num_files - 1)).map fun i => panel.files (i + 1))
  { panel with
    files := fun i =>
      if 1 ≤ i ∧ i < panel.num_files then sorted.getD (i - 1) (panel.files i)
      else panel.files i }

/-! ## Directory lister -/

/-- The function `display_error`. -/
def display_error {σ : Type} (message : String) (s : State σ) : State σ :=
  { s with errors := s.errors ++ [message] }

/-- The record that the loop of `read_directory` stores for a name and its
`stat` result. -/
def make_entry (d_name : String) (st : Stat) : FileEntry :=
  { name := snprintf MAX_FILENAME_LEN d_name
    size := st.st_size
    mode := st.st_mode
    mtime := st.st_mtime
    is_dir := S_ISDIR st.st_mode }

/-- Store `e` at `files[num_files]` and increment `num_files`. -/
def Panel.push (p : Panel) (e : FileEntry) : Panel :=
  { p with
    files := fun i => if i = p.num_files then e else p.files i
    num_files := p.num_files + 1 }

/-- The `while ((entry = readdir(dir)) != NULL && num_files < MAX_FILES)` loop
of `read_directory`, over the names still to be returned by `readdir`. -/
def read_entries {σ : Type} (os : Sys σ) (r : PanelRef) : List String → State σ → State σ
  | [], s => s
  | d_name :: rest, s =>
    if (s.panel r).num_files < MAX_FILES then
      if d_name = "." ∨ d_name = ".." then read_entries os r rest s
      else
        let full_path := path_join (s.panel r).current_path d_name
        let s1 := s.call (.stat full_path)
        match os.stat s1.fs full_path with
        | none => read_entries os r rest s1
        | some st =>
          read_entries os r rest (s1.set_panel r ((s1.panel r).push (make_entry d_name st)))
    else s

/-- The function `read_directory`, applied to the panel that `r` points to. -/
def read_directory {σ : Type} (os : Sys σ) (r : PanelRef) (s : State σ) : State σ :=
  let p := s.panel r
  let p0 : Panel :=
    { p with
      files := fun i => if i = 0 then { p.files 0 with name := "..", is_dir := true } else p.files i
      num_files := 1 }
  let s1 := (s.set_panel r p0).call (.opendir p0.current_path)
  match os.opendir s1.fs p0.current_path with
  | none => display_error "Impossibile aprire la directory" s1
  | some names =>
    let s2 := read_entries os r names s1
    s2.set_panel r (sort_files (s2.panel s2.active_panel) (s2.panel r))

/-- The function `init_panels`, started on file system `fs`. -/
def init_panels {σ : Type} (os : Sys σ) (fs : σ) : State σ :=
  let p : Panel :=
    { current_path := os.getcwd fs
      files := fun _ => FileEntry.zero
      num_files := 0
      selected := 0
      scroll_pos := 0
      sort_by := 0
      sort_order := 0 }
  { left_panel := p
    right_panel := p
    active_panel := .left
    fs := fs
    trace := []
    errors := []
    exited := false
    overflow := false }

/-! ## File operation engine -/

/-- The `fread`/`fwrite` loop of `copy_file` with a 4096-byte buffer; `fuel`
bounds the number of iterations and `data.length` always suffices. -/
def copy_loop {σ : Type} (os : Sys σ) (dst : String) : Nat → List Nat → σ → σ
  | 0, _, fs => fs
  | fuel + 1, data, fs =>
    if data.take 4096 = [] then fs
    else copy_loop os dst fuel (data.drop 4096) (os.fwrite fs dst (data.take 4096))

/-- The function `copy_file`. -/
def copy_file {σ : Type} (os : Sys σ) (src dst : String) (s : State σ) : State σ :=
  if src = ".." then s
  else
    let s1 := s.call (.fopen_rb src)
    if os.fopen_rb s1.fs src = false then
      display_error "Impossibile aprire il file sorgente" s1
    else
      let s2 := s1.call (.fopen_wb dst)
      match os.fopen_wb s2.fs dst with
      | none => display_error "Impossibile creare il file destinazione" s2
      | some fs1 =>
        let data := os.fread_all fs1 src
        let fs2 := copy_loop os dst data.length data fs1
        let s3 := { s2 with fs := fs2 }.call (.stat src)
        match os.stat fs2 src with
        | some st => { s3 with fs := os.chmod fs2 dst st.st_mode }.call (.chmod dst st.st_mode)
        | none => s3

/-- The function `delete_file`. -/
def delete_file {σ : Type} (os : Sys σ) (path : String) (s : State σ) : State σ :=
  let s1 := s.call (.stat path)
  match os.stat s1.fs path with
  | none => display_error "File non trovato" s1
  | some st =>
    if S_ISDIR st.st_mode then
      let s2 := s1.call (.rmdir path)
      match os.rmdir s2.fs path with
      | some fs1 => { s2 with fs := fs1 }
      | none =>
        display_error "Impossibile eliminare la directory (potrebbe non essere vuota)" s2
    else
      let s2 := s1.call (.unlink path)
      match os.unlink s2.fs path with
      | some fs1 => { s2 with fs := fs1 }
      | none => display_error "Impossibile eliminare il file" s2

/-- The function `move_file`. -/
def move_file {σ : Type} (os : Sys σ) (src dst : String) (s : State σ) : State σ :=
  let s1 := s.call (.rename src dst)
  match os.rename s1.fs src dst with
  | some fs1 => { s1 with fs := fs1 }
  | none => delete_file os src (copy_file os src dst s1)

/-- The command line `"%s \"%s\""` built by `view_file` and `edit_file`. -/
def quote_command (program path : String) : String :=
  snprintf MAX_COMMAND_LEN
    (program ++ " " ++ String.singleton (Char.ofNat 34) ++ path ++ String.singleton (Char.ofNat 34))

/-- The function `view_file`. -/
def view_file {σ : Type} (os : Sys σ) (path : String) (s : State σ) : State σ :=
  let viewer := (os.getenv s.fs "PAGER").getD "less"
  let command := quote_command viewer path
  { s with fs := os.system s.fs command }.call (.system command)

/-- The function `edit_file`. -/
def edit_file {σ : Type} (os : Sys σ) (path : String) (s : State σ) : State σ :=
  let editor := (os.getenv s.fs "EDITOR").getD "vi"
  let command := quote_command editor path
  { s with fs := os.system s.fs command }.call (.system command)

/-- The function `open_shell`. -/
def open_shell {σ : Type} (os : Sys σ) (s : State σ) : State σ :=
  let shell := (os.getenv s.fs "SHELL").getD "/bin/sh"
  { s with fs := os.system s.fs shell }.call (.system shell)

/-! ## Rendering -/

/-- The function `draw_panel`, as far as it changes the program state: the
adjustment of `scroll_pos` at its start, with `max_display = height`. The
drawing calls that follow only write to the terminal. The `int` arithmetic is
that of the integers; in the program the values stay far from the `int` bounds. -/
def draw_panel (panel : Panel) (_x _y _width height : Int) : Panel :=
  let max_display := height
  if panel.selected < panel.scroll_pos then
    { panel with scroll_pos := panel.selected }
  else if panel.selected ≥ panel.scroll_pos + max_display then
    { panel with scroll_pos := panel.selected - max_display + 1 }
  else panel

/-- The function `draw_interface` for a terminal of `term_rows` by `term_cols`:
both panels are drawn with height `term_rows - 4`. -/
def draw_interface {σ : Type} (term_rows term_cols : Int) (s : State σ) : State σ :=
  let panel_width := Int.tdiv term_cols 2
  let panel_height := term_rows - 4
  let s1 := { s with left_panel := draw_panel s.left_panel 0 1 panel_width panel_height }
  { s1 with right_panel := draw_panel s1.right_panel panel_width 1 panel_width panel_height }

/-! ## Panel navigation and the command dispatcher -/

/-- The buffer `new_path` of `change_directory`: the target itself when it is
absolute (`strncpy`), otherwise `"%s/%s"` of the current path and the target. -/
def new_path (current_path path : String) : String :=
  if path.data.head? = some '/' then snprintf MAX_PATH_LEN path
  else path_join current_path path

/-- The function `change_directory`, applied to the panel that `r` points to.
`realpath(new_path, NULL)` returns a string of any length and `strcpy` copies
it into `char current_path[MAX_PATH_LEN]`: a result of `MAX_PATH_LEN` bytes or
more does not fit with its terminator and runs past the buffer, which the
model records in `overflow` without following the program further. -/
def change_directory {σ : Type} (os : Sys σ) (r : PanelRef) (path : String) (s : State σ) :
    State σ :=
  let new_path := new_path (s.panel r).current_path path
  let s1 := s.call (.realpath new_path)
  match os.realpath s1.fs new_path with
  | some real_path =>
    if real_path.length < MAX_PATH_LEN then
      let p := s1.panel r
      read_directory os r
        (s1.set_panel r { p with current_path := real_path, selected := 0, scroll_pos := 0 })
    else { s1 with overflow := true }
  | none => display_error "Directory non accessibile" s1

/-- The function `handle_input`, for the key `ch` returned by `getch`. -/
def handle_input {σ : Type} (os : Sys σ) (ch : Key) (s : State σ) : State σ :=
  let active := s.panel s.active_panel
  let inactive_panel := s.active_panel.other
  let selected_file := active.selected_file
  match ch with
  | .KEY_UP =>
    if active.selected > 0 then
      s.set_panel s.active_panel { active with selected := active.selected - 1 }
    else s
  | .KEY_DOWN =>
    if active.selected < (active.num_files : Int) - 1 then
      s.set_panel s.active_panel { active with selected := active.selected + 1 }
    else s
  | .KEY_LEFT => { s with active_panel := s.active_panel.other }
  | .ch '\t' => { s with active_panel := s.active_panel.other }
  | .ch '\n' =>
    if selected_file.is_dir then change_directory os s.active_panel selected_file.name s
    else s
  | .KEY_F 3 =>
    if ¬ selected_file.is_dir then
      view_file os (path_join active.current_path selected_file.name) s
    else s
  | .KEY_F 4 =>
    if ¬ selected_file.is_dir then
      edit_file os (path_join active.current_path selected_file.name) s
    else s
  | .KEY_F 5 =>
    let full_path := path_join active.current_path selected_file.name
    let target_path := path_join (s.panel inactive_panel).current_path selected_file.name
    read_directory os inactive_panel (copy_file os full_path target_path s)
  | .KEY_F 6 =>
    let full_path := path_join active.current_path selected_file.name
    let target_path := path_join (s.panel inactive_panel).current_path selected_file.name
    read_directory os inactive_panel
      (read_directory os s.active_panel (move_file os full_path target_path s))
  | .KEY_F 8 =>
    if selected_file.name = ".." then s
    else
      let full_path := path_join active.current_path selected_file.name
      read_directory os s.active_panel (delete_file os full_path s)
  | .KEY_F 9 => open_shell os s
  | .ch 's' =>
    let p : Panel := { active with sort_by := (active.sort_by + 1) % 3 }
    s.set_panel s.active_panel (sort_files p p)
  | .ch 'r' =>
    let p : Panel := { active with sort_order := if active.sort_order = 0 then 1 else 0 }
    s.set_panel s.active_panel (sort_files p p)
  | .ch 'q' => { s with exited := true }
  | .ch 'Q' => { s with exited := true }
  | .KEY_F 10 => { s with exited := true }
  | _ => s

/-- The start of `main`: `init_panels` and the two initial `read_directory` calls. -/
def startup {σ : Type} (os : Sys σ) (fs : σ) : State σ :=
  read_directory os .right (read_directory os .left (init_panels os fs))

/-- The main loop of `main` over the keys typed, until `exit`. -/
def main_loop {σ : Type} (os : Sys σ) : List Key → State σ → State σ
  | [], s => s
  | ch :: rest, s => if s.exited then s else main_loop os rest (handle_input os ch s)

/-! ## A simulated file system

A concrete instance of `Sys`, used to run the program on explicit inputs:
objects are keyed by their absolute path, paths are resolved lexically (no
symbolic links), and `refused` lists the calls that the environment rejects
(permissions, read-only or foreign mount, ...). -/

/-- One file-system object. -/
structure Node where
  path : String
  st : Stat
  data : List Nat
deriving DecidableEq

/-- State of the simulated file system. -/
structure SimFS where
  cwd : String
  nodes : List Node
  refused : List Syscall
deriving DecidableEq

/-- Components of a path, split at every slash. -/
def split_path : List Char → List (List Char)
  | [] => [[]]
  | c :: cs =>
    if c = '/' then [] :: split_path cs
    else
      match split_path cs with
      | [] => [[c]]
      | x :: xs => (c :: x) :: xs

/-- Drop empty and `.` components and let `..` cancel the component before it. -/
def resolve_dots : List (List Char) → List (List Char) → List (List Char)
  | [], stack => stack.reverse
  | c :: cs, stack =>
    if c = [] ∨ c = ['.'] then resolve_dots cs stack
    else if c = ['.', '.'] then resolve_dots cs stack.tail
    else resolve_dots cs (c :: stack)

/-- Absolute path of the given components. -/
def join_path (comps : List (List Char)) : String :=
  if comps = [] then "/" else ⟨(comps.map fun c => '/' :: c).flatten⟩

namespace SimFS

/-- Absolute, normalised form of `path`. -/
def resolve (fs : SimFS) (path : String) : String :=
  let abs := if path.data.head? = some '/' then path.data else fs.cwd.data ++ '/' :: path.data
  join_path (resolve_dots (split_path abs) [])

/-- Directory that holds the object named by the resolved path. -/
def parent (fs : SimFS) (path : String) : String :=
  let abs := if path.data.head? = some '/' then path.data else fs.cwd.data ++ '/' :: path.data
  join_path (resolve_dots (split_path abs) []).dropLast

/-- Whether the last component of `path` is `.` or `..`. -/
def ends_in_dots (path : String) : Bool :=
  let last := (split_path path.data).getLast?
  decide (last = some ['.'] ∨ last = some ['.', '.'])

/-- The object that `path` names. -/
def lookup (fs : SimFS) (path : String) : Option Node :=
  fs.nodes.find? fun n => decide (n.path = fs.resolve path)

/-- Whether `path` names a directory. -/
def is_directory (fs : SimFS) (path : String) : Bool :=
  match fs.lookup path with
  | some n => S_ISDIR n.st.st_mode
  | none => false

/-- Name of `n` inside directory `dir`, when `n` lies directly in it. -/
def child_name (dir : String) (n : Node) : Option String :=
  let pre := if dir = "/" then dir.data else dir.data ++ ['/']
  let rest := n.path.data.drop pre.length
  if pre.isPrefixOf n.path.data = true ∧ rest ≠ [] ∧ '/' ∉ rest then some ⟨rest⟩ else none

/-- Names directly inside the directory with resolved path `dir`. -/
def children (fs : SimFS) (dir : String) : List String :=
  fs.nodes.filterMap (child_name dir)

/-- Whether `n` is the object at resolved path `root` or lies below it. -/
def under (root : String) (n : Node) : Bool :=
  decide (n.path = root) || (root.data ++ ['/']).isPrefixOf n.path.data

/-- Replace the object at the resolved path of `path` by `f` of it. -/
def modify (fs : SimFS) (path : String) (f : Node → Node) : SimFS :=
  { fs with nodes := fs.nodes.map fun n => if n.path = fs.resolve path then f n else n }

/-- Remove the object at the resolved path of `path`. -/
def remove (fs : SimFS) (path : String) : SimFS :=
  { fs with nodes := fs.nodes.filter fun n => decide (n.path ≠ fs.resolve path) }

/-- `opendir` and the `readdir` sequence: `.`, `..`, then the children. -/
def opendir (fs : SimFS) (path : String) : Option (List String) :=
  if Syscall.opendir path ∈ fs.refused then none
  else if fs.is_directory path then some ("." :: ".." :: fs.children (fs.resolve path))
  else none

/-- `stat`: the metadata of the object that `path` names. -/
def stat (fs : SimFS) (path : String) : Option Stat :=
  if Syscall.stat path ∈ fs.refused then none else (fs.lookup path).map Node.st

/-- `realpath`: the resolved path when it names an existing object. -/
def realpath (fs : SimFS) (path : String) : Option String :=
  if Syscall.realpath path ∈ fs.refused then none
  else (fs.lookup path).map fun _ => fs.resolve path

/-- `rename`: relabel the object at `src` and everything below it. -/
def rename (fs : SimFS) (src dst : String) : Option SimFS :=
  if Syscall.rename src dst ∈ fs.refused ∨ ends_in_dots src = true ∨ ends_in_dots dst = true
      ∨ fs.lookup src = none ∨ fs.is_directory (fs.parent dst) = false then none
  else
    let from_path := fs.resolve src
    let to_path := fs.resolve dst
    some { fs with
      nodes := (fs.nodes.filter fun n => under from_path n || !under to_path n).map fun n =>
        if under from_path n then
          { n with path := ⟨to_path.data ++ n.path.data.drop from_path.data.length⟩ }
        else n }

/-- `fopen(path, "rb")`: succeeds on every existing object. -/
def fopen_rb (fs : SimFS) (path : String) : Bool :=
  decide (Syscall.fopen_rb path ∉ fs.refused) && (fs.lookup path).isSome

/-- `fopen(path, "wb")`: truncate an existing file or create a new one in
an existing directory. -/
def fopen_wb (fs : SimFS) (path : String) : Option SimFS :=
  if Syscall.fopen_wb path ∈ fs.refused ∨ ends_in_dots path = true then none
  else
    match fs.lookup path with
    | some n =>
      if S_ISDIR n.st.st_mode then none
      else some (fs.modify path fun m => { m with data := [], st := { m.st with st_size := 0 } })
    | none =>
      if fs.is_directory (fs.parent path) then
        some { fs with nodes := fs.nodes ++ [⟨fs.resolve path, ⟨0, 33188, 0⟩, []⟩] }
      else none

/-- Bytes read from the file at `path`. -/
def fread_all (fs : SimFS) (path : String) : List Nat :=
  match fs.lookup path with
  | some n => n.data
  | none => []

/-- Append `bytes` to the file at `path`. -/
def fwrite (fs : SimFS) (path : String) (bytes : List Nat) : SimFS :=
  fs.modify path fun n =>
    { n with data := n.data ++ bytes, st := { n.st with st_size := n.st.st_size + bytes.length } }

/-- `chmod`: replace the permission bits, keep the file type. -/
def chmod (fs : SimFS) (path : String) (mode : Nat) : SimFS :=
  if Syscall.chmod path mode ∈ fs.refused then fs
  else fs.modify path fun n =>
    { n with st := { n.st with st_mode := n.st.st_mode / 4096 * 4096 + mode % 4096 } }

/-- `unlink`: remove a non-directory. -/
def unlink (fs : SimFS) (path : String) : Option SimFS :=
  if Syscall.unlink path ∈ fs.refused ∨ fs.lookup path = none ∨ fs.is_directory path = true
  then none
  else some (fs.remove path)

/-- `rmdir`: remove an empty directory. -/
def rmdir (fs : SimFS) (path : String) : Option SimFS :=
  if Syscall.rmdir path ∈ fs.refused ∨ ends_in_dots path = true ∨ fs.is_directory path = false
      ∨ fs.children (fs.resolve path) ≠ [] then none
  else some (fs.remove path)

end SimFS

/-- The simulated file system as an operating system for the program. -/
def sim : Sys SimFS where
  getcwd := fun fs => fs.cwd
  getenv := fun _ _ => none
  opendir := SimFS.opendir
  stat := SimFS.stat
  realpath := SimFS.realpath
  rename := SimFS.rename
  fopen_rb := SimFS.fopen_rb
  fopen_wb := SimFS.fopen_wb
  fread_all := SimFS.fread_all
  fwrite := SimFS.fwrite
  chmod := SimFS.chmod
  unlink := SimFS.unlink
  rmdir := SimFS.rmdir
  system := fun fs _ => fs

/-- A directory object with mode `drwxr-xr-x`. -/
def dir_node (path : String) : Node := ⟨path, ⟨4096, 16877, 0⟩, []⟩

/-- A regular file with mode `-rw-r--r--` and the given content. -/
def file_node (path : String) (data : List Nat) : Node :=
  ⟨path, ⟨data.length, 33188, 0⟩, data⟩

/-- Names of the displayed entries of a panel. -/
def Panel.names (p : Panel) : List String := p.listing.map FileEntry.name


/-! ## Predicates used in the statements -/

/-- Entry `e` is the record that `read_directory` builds for one of the
enumerated `names`, other than `.` and `..`, whose `stat` succeeded. -/
def listed {σ : Type} (os : Sys σ) (fs : σ) (dir : String) (names : List String)
    (e : FileEntry) : Prop :=
  ∃ d ∈ names, d ≠ "." ∧ d ≠ ".." ∧
    ∃ st, os.stat fs (path_join dir d) = some st ∧ e = make_entry d st

/-- The listing of `p` starts with the pinned parent entry: there is an entry
0, it is the directory named `..`, and no entry behind it is named `..`. This
is what `read_directory` leaves in a panel. -/
def Panel.dotdot_pinned (p : Panel) : Prop :=
  1 ≤ p.num_files ∧ (p.files 0).name = ".." ∧ (p.files 0).is_dir = true ∧
    ∀ e ∈ p.listing.tail, e.name ≠ ".."

instance (p : Panel) : Decidable p.dotdot_pinned := by
  unfold Panel.dotdot_pinned
  infer_instance


/-! ## Concrete inputs -/

/-- A file `/src/f` and a directory `/ro` on another, read-only mount: renaming
into `/ro` is refused and so is creating `/ro/f`. -/
def fs_move : SimFS :=
  { cwd := "/src"
    nodes := [dir_node "/", dir_node "/src", file_node "/src/f" [104, 105], dir_node "/ro"]
    refused := [.rename "/src/f" "/ro/f", .fopen_wb "/ro/f"] }

/-- As `fs_move`, but the source itself cannot be opened for reading. -/
def fs_move_unreadable : SimFS :=
  { cwd := "/src"
    nodes := [dir_node "/", dir_node "/src", file_node "/src/f" [104, 105], dir_node "/ro"]
    refused := [.rename "/src/f" "/ro/f", .fopen_rb "/src/f"] }

/-- A directory `/d` holding the single file `a`. -/
def fs_single : SimFS :=
  { cwd := "/d"
    nodes := [dir_node "/", dir_node "/d", file_node "/d/a" [104, 105]]
    refused := [] }

/-- Two directories `/l` (file `x`) and `/r` (files `a`, `b`). -/
def fs_two : SimFS :=
  { cwd := "/"
    nodes := [dir_node "/", dir_node "/l", file_node "/l/x" [1], dir_node "/r",
      file_node "/r/a" [2], file_node "/r/b" [3]]
    refused := [] }

/-- Keys that take the left panel to `/l` and the right panel to `/r`, switch
the right panel to descending order, return to the left panel and select `x`. -/
def keys_two : List Key :=
  [.KEY_DOWN, .ch '\n', .ch '\t', .KEY_DOWN, .KEY_DOWN, .ch '\n', .ch 'r', .ch '\t', .KEY_DOWN]

/-- The scenario of the specification: `/tmp/a` with `b.txt` (100 bytes),
`c.txt` (50 bytes) and the subdirectory `d`. -/
def fs_sizes : SimFS :=
  { cwd := "/tmp/a"
    nodes := [dir_node "/", dir_node "/tmp", dir_node "/tmp/a",
      file_node "/tmp/a/b.txt" (List.replicate 100 120),
      file_node "/tmp/a/c.txt" (List.replicate 50 120), dir_node "/tmp/a/d"]
    refused := [] }

/-- A directory `/d` with a subdirectory `locked` that may be traversed but not
listed. -/
def fs_locked : SimFS :=
  { cwd := "/d"
    nodes := [dir_node "/", dir_node "/d", dir_node "/d/locked"]
    refused := [.opendir "/d/locked"] }

/-- Two files whose names differ only in letter case. -/
def fs_case : SimFS :=
  { cwd := "/c"
    nodes := [dir_node "/", dir_node "/c", file_node "/c/a.txt" [1], file_node "/c/A.txt" [2]]
    refused := [] }

/-- The panel setting "sort by name, descending" applied to `p`. -/
def Panel.descending (p : Panel) : Panel := { p with sort_order := 1 }

/-- The panel setting "sort by size" applied to `p`. -/
def Panel.by_size (p : Panel) : Panel := { p with sort_by := 1 }

/-- The panel setting "sort by modification time" applied to `p`. -/
def Panel.by_time (p : Panel) : Panel := { p with sort_by := 2 }

/-- A regular file of 4 GiB. -/
def entry_4g : FileEntry := ⟨"big.iso", 4294967296, 33188, 1700000000, false⟩

/-- A regular file of 2 GiB. -/
def entry_2g : FileEntry := ⟨"disk.img", 2147483648, 33188, 1700000000, false⟩

/-- An empty regular file, dated 1954. -/
def entry_empty : FileEntry := ⟨"empty", 0, 33188, -500000000, false⟩


/-! ## Lemmas on the sorting model -/

theorem insert_by_perm {α : Type} (c : α → α → Int) (x : α) (l : List α) :
    (insert_by c x l).Perm (x :: l) := by
  induction l with
  | nil => exact List.Perm.refl _
  | cons y ys ih =>
    unfold insert_by
    split
    · exact List.Perm.refl _
    · exact (List.Perm.cons y ih).trans (List.Perm.swap x y ys)

theorem qsort_perm {α : Type} (c : α → α → Int) (l : List α) : (qsort c l).Perm l := by
  induction l with
  | nil => exact List.Perm.refl _
  | cons x xs ih =>
    unfold qsort
    exact (insert_by_perm c x _).trans (List.Perm.cons x ih)

theorem qsort_length {α : Type} (c : α → α → Int) (l : List α) :
    (qsort c l).length = l.length :=
  (qsort_perm c l).length_eq

theorem mem_qsort {α : Type} (c : α → α → Int) (l : List α) (a : α) :
    a ∈ qsort c l ↔ a ∈ l :=
  (qsort_perm c l).mem_iff

/-- Inserting into a list ordered by `c · · ≤ 0` keeps it ordered, when `c` is
total and transitive on the elements involved. -/
theorem insert_by_pairwise {α : Type} (c : α → α → Int) (x : α) (l : List α)
    (tot : ∀ y ∈ l, ¬ c x y ≤ 0 → c y x ≤ 0)
    (trans : ∀ y ∈ l, ∀ z ∈ l, c x y ≤ 0 → c y z ≤ 0 → c x z ≤ 0)
    (hl : l.Pairwise fun a b => c a b ≤ 0) :
    (insert_by c x l).Pairwise fun a b => c a b ≤ 0 := by
  induction l with
  | nil => simp [insert_by]
  | cons y ys ih =>
    have hy := List.pairwise_cons.mp hl
    unfold insert_by
    split
    · rename_i hxy
      refine List.pairwise_cons.mpr ⟨?_, hl⟩
      intro z hz
      rcases List.mem_cons.mp hz with rfl | hz
      · exact hxy
      · exact trans y (List.mem_cons_self _ _) z (List.mem_cons_of_mem _ hz) hxy (hy.1 z hz)
    · rename_i hxy
      refine List.pairwise_cons.mpr ⟨?_, ?_⟩
      · intro z hz
        rcases List.mem_cons.mp ((insert_by_perm c x ys).mem_iff.mp hz) with rfl | hz
        · exact tot y (List.mem_cons_self _ _) hxy
        · exact hy.1 z hz
      · exact ih (fun z hz => tot z (List.mem_cons_of_mem _ hz))
          (fun z hz w hw => trans z (List.mem_cons_of_mem _ hz) w (List.mem_cons_of_mem _ hw))
          hy.2

/-- The sorting model orders its output by `c · · ≤ 0` whenever `c` is total
and transitive on the elements of the input. -/
theorem qsort_pairwise {α : Type} (c : α → α → Int) (l : List α)
    (tot : ∀ a ∈ l, ∀ b ∈ l, ¬ c a b ≤ 0 → c b a ≤ 0)
    (trans : ∀ a ∈ l, ∀ b ∈ l, ∀ d ∈ l, c a b ≤ 0 → c b d ≤ 0 → c a d ≤ 0) :
    (qsort c l).Pairwise fun a b => c a b ≤ 0 := by
  induction l with
  | nil => simp [qsort]
  | cons x xs ih =>
    unfold qsort
    apply insert_by_pairwise
    · intro y hy
      exact tot x (List.mem_cons_self _ _) y (List.mem_cons_of_mem _ ((mem_qsort c xs y).mp hy))
    · intro y hy z hz
      exact trans x (List.mem_cons_self _ _) y (List.mem_cons_of_mem _ ((mem_qsort c xs y).mp hy))
        z (List.mem_cons_of_mem _ ((mem_qsort c xs z).mp hz))
    · exact ih (fun a ha b hb => tot a (List.mem_cons_of_mem _ ha) b (List.mem_cons_of_mem _ hb))
        (fun a ha b hb d hd => trans a (List.mem_cons_of_mem _ ha) b (List.mem_cons_of_mem _ hb)
          d (List.mem_cons_of_mem _ hd))

/-- Elements flagged by `d` stay in front of the others through an insertion,
when `c` puts every flagged element strictly before every other one. -/
theorem insert_by_flag_first {α : Type} (c : α → α → Int) (d : α → Bool) (x : α) (l : List α)
    (lo : ∀ y ∈ l, d x = true → d y = false → c x y ≤ 0)
    (hi : ∀ y ∈ l, d x = false → d y = true → ¬ c x y ≤ 0)
    (hl : l.Pairwise fun a b => d a = false → d b = false) :
    (insert_by c x l).Pairwise fun a b => d a = false → d b = false := by
  induction l with
  | nil => simp [insert_by]
  | cons y ys ih =>
    have hy := List.pairwise_cons.mp hl
    unfold insert_by
    split
    · rename_i hxy
      refine List.pairwise_cons.mpr ⟨?_, hl⟩
      intro z hz hx
      have hyf : d y = false := by
        cases hdy : d y with
        | false => rfl
        | true => exact absurd hxy (hi y (List.mem_cons_self _ _) hx hdy)
      rcases List.mem_cons.mp hz with rfl | hz
      · exact hyf
      · exact hy.1 z hz hyf
    · rename_i hxy
      refine List.pairwise_cons.mpr ⟨?_, ?_⟩
      · intro z hz hyf
        rcases List.mem_cons.mp ((insert_by_perm c x ys).mem_iff.mp hz) with rfl | hz
        · cases hdz : d z with
          | false => rfl
          | true => exact absurd (lo y (List.mem_cons_self _ _) hdz hyf) hxy
        · exact hy.1 z hz hyf
      · exact ih (fun z hz => lo z (List.mem_cons_of_mem _ hz))
          (fun z hz => hi z (List.mem_cons_of_mem _ hz)) hy.2

theorem qsort_flag_first {α : Type} (c : α → α → Int) (d : α → Bool) (l : List α)
    (lo : ∀ a ∈ l, ∀ b ∈ l, d a = true → d b = false → c a b ≤ 0)
    (hi : ∀ a ∈ l, ∀ b ∈ l, d a = false → d b = true → ¬ c a b ≤ 0) :
    (qsort c l).Pairwise fun a b => d a = false → d b = false := by
  induction l with
  | nil => simp [qsort]
  | cons x xs ih =>
    unfold qsort
    apply insert_by_flag_first
    · intro y hy
      exact lo x (List.mem_cons_self _ _) y (List.mem_cons_of_mem _ ((mem_qsort c xs y).mp hy))
    · intro y hy
      exact hi x (List.mem_cons_self _ _) y (List.mem_cons_of_mem _ ((mem_qsort c xs y).mp hy))
    · exact ih (fun a ha b hb => lo a (List.mem_cons_of_mem _ ha) b (List.mem_cons_of_mem _ hb))
        (fun a ha b hb => hi a (List.mem_cons_of_mem _ ha) b (List.mem_cons_of_mem _ hb))

/-- Two arrangements of the same elements that are both ordered by `r` coincide
when `r` is antisymmetric on these elements. -/
theorem ordered_perm_unique {α : Type} (r : α → α → Prop) :
    ∀ (l₁ l₂ : List α), (∀ a ∈ l₁, ∀ b ∈ l₁, r a b → r b a → a = b) →
      l₁.Perm l₂ → l₁.Pairwise r → l₂.Pairwise r → l₁ = l₂
  | [], l₂, _, hp, _, _ => (List.Perm.nil_eq hp)
  | a :: t, [], _, hp, _, _ => absurd hp.symm.nil_eq (by simp)
  | a :: t, b :: t₂, anti, hp, h₁, h₂ => by
    have p₁ := List.pairwise_cons.mp h₁
    have p₂ := List.pairwise_cons.mp h₂
    have hab : a = b := by
      by_cases h : a = b
      · exact h
      · have hb : b ∈ a :: t := hp.mem_iff.mpr (List.mem_cons_self _ _)
        have ha : a ∈ b :: t₂ := hp.mem_iff.mp (List.mem_cons_self _ _)
        have hbt : b ∈ t := by
          rcases List.mem_cons.mp hb with e | e
          · exact absurd e.symm h
          · exact e
        have hat : a ∈ t₂ := by
          rcases List.mem_cons.mp ha with e | e
          · exact absurd e h
          · exact e
        exact anti a (List.mem_cons_self _ _) b hb (p₁.1 b hbt) (p₂.1 a hat)
    subst hab
    have ht : t = t₂ :=
      ordered_perm_unique r t t₂
        (fun x hx y hy => anti x (List.mem_cons_of_mem _ hx) y (List.mem_cons_of_mem _ hy))
        (List.Perm.cons_inv hp) p₁.2 p₂.2
    rw [ht]


/-! ## Lemmas on listings and `sort_files` -/

theorem listing_length (p : Panel) : p.listing.length = p.num_files := by
  simp [Panel.listing]

theorem listing_tail (p : Panel) :
    p.listing.tail = (List.range (p.num_files - 1)).map fun i => p.files (i + 1) := by
  unfold Panel.listing
  cases h : p.num_files with
  | zero => simp
  | succ m =>
    rw [List.range_succ_eq_map]
    simp [List.map_map, Function.comp_def]

theorem listing_cons (p : Panel) (h : 1 ≤ p.num_files) :
    p.listing = p.files 0 :: p.listing.tail := by
  rw [listing_tail]
  unfold Panel.listing
  obtain ⟨m, hm⟩ : ∃ m, p.num_files = m + 1 := ⟨p.num_files - 1, by omega⟩
  rw [hm, List.range_succ_eq_map]
  simp [List.map_map, Function.comp_def]

theorem mem_listing_tail (p : Panel) (e : FileEntry) :
    e ∈ p.listing.tail ↔ ∃ i, 1 ≤ i ∧ i < p.num_files ∧ p.files i = e := by
  rw [listing_tail]
  simp only [List.mem_map, List.mem_range]
  constructor
  · rintro ⟨i, hi, rfl⟩
    exact ⟨i + 1, by omega, by omega, rfl⟩
  · rintro ⟨i, h1, h2, rfl⟩
    exact ⟨i - 1, by omega, by congr 1; omega⟩

theorem map_getD_range {α : Type} (l : List α) (f : Nat → α) :
    (List.range l.length).map (fun i => l.getD i (f i)) = l := by
  apply List.ext_getElem
  · simp
  · intro i h1 h2
    simp [List.getD_eq_getElem?_getD, List.getElem?_eq_getElem h2]

theorem sort_files_num_files (a p : Panel) : (sort_files a p).num_files = p.num_files := rfl

theorem sort_files_files_zero (a p : Panel) : (sort_files a p).files 0 = p.files 0 := by
  simp [sort_files]

theorem sort_files_listing_tail (a p : Panel) :
    (sort_files a p).listing.tail = qsort (file_compare a) p.listing.tail := by
  rw [listing_tail, listing_tail, sort_files_num_files]
  have hlen : (qsort (file_compare a)
      ((List.range (p.num_files - 1)).map fun i => p.files (i + 1))).length = p.num_files - 1 := by
    rw [qsort_length]; simp
  have key : ∀ i ∈ List.range (p.num_files - 1),
      (sort_files a p).files (i + 1) =
        (qsort (file_compare a) ((List.range (p.num_files - 1)).map fun i => p.files (i + 1))).getD
          i (p.files (i + 1)) := by
    intro i hi
    have hi' : i + 1 < p.num_files := by
      have := List.mem_range.mp hi
      omega
    simp [sort_files, hi']
  rw [List.map_congr_left key]
  have h := map_getD_range (qsort (file_compare a)
    ((List.range (p.num_files - 1)).map fun i => p.files (i + 1))) (fun i => p.files (i + 1))
  rw [hlen] at h
  exact h

theorem sort_files_listing (a p : Panel) (h : 1 ≤ p.num_files) :
    (sort_files a p).listing = p.files 0 :: qsort (file_compare a) p.listing.tail := by
  rw [listing_cons (sort_files a p) h, sort_files_files_zero, sort_files_listing_tail]

theorem sort_files_listing_perm (a p : Panel) : (sort_files a p).listing.Perm p.listing := by
  by_cases h : 1 ≤ p.num_files
  · rw [sort_files_listing a p h]
    conv_rhs => rw [listing_cons p h]
    exact List.Perm.cons _ (qsort_perm _ _)
  · have h0 : p.num_files = 0 := by omega
    simp [Panel.listing, sort_files_num_files, h0]


/-! ## Lemmas on the comparator -/

theorem file_compare_dir_first (a : Panel) (fa fb : FileEntry)
    (ha : fa.name ≠ "..") (hb : fb.name ≠ "..") (hda : fa.is_dir = true)
    (hdb : fb.is_dir = false) :
    file_compare a fa fb = -1 ∧ file_compare a fb fa = 1 := by
  unfold file_compare
  simp [ha, hb, hda, hdb]

theorem to_int32_small (x : Int) (h1 : -2147483648 ≤ x) (h2 : x < 2147483648) :
    to_int32 x = x := by
  unfold to_int32
  omega

/-- Value of the comparator on two entries of equal directory-ness when the
active panel sorts by size. -/
theorem file_compare_size (a : Panel) (fa fb : FileEntry) (hs : a.sort_by = 1)
    (ha : fa.name ≠ "..") (hb : fb.name ≠ "..") (hd : fa.is_dir = fb.is_dir) :
    file_compare a fa fb =
      if a.sort_order ≠ 0 then to_int32 (fb.size - fa.size) else to_int32 (fa.size - fb.size) := by
  unfold file_compare
  cases hfb : fb.is_dir <;> simp [ha, hb, hs, hd, hfb]

/-- Value of the comparator on two entries of equal directory-ness when the
active panel sorts by name. -/
theorem file_compare_name (a : Panel) (fa fb : FileEntry) (hs : a.sort_by = 0)
    (ha : fa.name ≠ "..") (hb : fb.name ≠ "..") (hd : fa.is_dir = fb.is_dir) :
    file_compare a fa fb =
      if a.sort_order ≠ 0 then - strcasecmp fa.name fb.name else strcasecmp fa.name fb.name := by
  unfold file_compare
  cases hfb : fb.is_dir <;> simp [ha, hb, hs, hd, hfb]

theorem tolower_eq_zero (c : Nat) : tolower c = 0 ↔ c = 0 := by
  unfold tolower
  split <;> omega

theorem strcasecmp_bytes_neg : ∀ (s1 s2 : List Nat),
    strcasecmp_bytes s2 s1 = - strcasecmp_bytes s1 s2
  | [], [] => by
    have h0 : tolower 0 = 0 := rfl
    simp [strcasecmp_bytes, h0]
  | [], c :: r => by
    have := tolower_eq_zero c
    simp only [strcasecmp_bytes, List.headD_cons, List.headD_nil]
    have h0 : tolower 0 = 0 := rfl
    rw [h0]
    split
    · omega
    · rename_i h
      push_neg at h
      omega
  | c :: r, [] => by
    have := tolower_eq_zero c
    simp only [strcasecmp_bytes, List.headD_cons, List.headD_nil]
    have h0 : tolower 0 = 0 := rfl
    rw [h0]
    split
    · omega
    · rename_i h
      push_neg at h
      omega
  | c1 :: r1, c2 :: r2 => by
    have ih := strcasecmp_bytes_neg r1 r2
    have z1 := tolower_eq_zero c1
    have z2 := tolower_eq_zero c2
    simp only [strcasecmp_bytes, List.headD_cons, List.tail_cons]
    split <;> split
    · omega
    · rename_i h1 h2
      push_neg at h2
      omega
    · rename_i h1 h2
      push_neg at h1
      omega
    · exact ih

theorem strcasecmp_neg (x y : String) : strcasecmp y x = - strcasecmp x y :=
  strcasecmp_bytes_neg _ _

theorem strcasecmp_bytes_trans : ∀ (s1 s2 s3 : List Nat),
    strcasecmp_bytes s1 s2 ≤ 0 → strcasecmp_bytes s2 s3 ≤ 0 → strcasecmp_bytes s1 s3 ≤ 0
  | [], _, s3 => by
    intro _ _
    simp only [strcasecmp_bytes]
    omega
  | c1 :: r1, [], s3 => by
    have z1 := tolower_eq_zero c1
    have h0 : tolower 0 = 0 := rfl
    simp only [strcasecmp_bytes, List.headD_nil, h0]
    intro h12 _
    split at h12
    · have hc : c1 = 0 := by omega
      subst hc
      simp only [strcasecmp_bytes, true_or, if_true, h0]
      omega
    · rename_i h
      push_neg at h
      omega
  | c1 :: r1, c2 :: r2, [] => by
    have z1 := tolower_eq_zero c1
    have z2 := tolower_eq_zero c2
    have h0 : tolower 0 = 0 := rfl
    simp only [strcasecmp_bytes, List.headD_nil, List.headD_cons, List.tail_cons, h0]
    intro h12 h23
    have hc2 : c2 = 0 := by
      split at h23
      · omega
      · rename_i h
        push_neg at h
        omega
    subst hc2
    rw [h0] at h12
    split at h12
    · have hc : c1 = 0 := by omega
      subst hc
      simp [h0]
    · rename_i h
      push_neg at h
      omega
  | c1 :: r1, c2 :: r2, c3 :: r3 => by
    have ih := strcasecmp_bytes_trans r1 r2 r3
    have z1 := tolower_eq_zero c1
    have z2 := tolower_eq_zero c2
    have z3 := tolower_eq_zero c3
    simp only [strcasecmp_bytes, List.headD_cons, List.tail_cons]
    intro h12 h23
    split at h12 <;> split at h23 <;> split
    · omega
    · rename_i h1 h2 h3
      push_neg at h3
      omega
    · omega
    · rename_i h1 h2 h3
      push_neg at h2 h3
      omega
    · omega
    · rename_i h1 h2 h3
      push_neg at h1 h3
      omega
    · rename_i h1 h2 h3
      push_neg at h1 h2
      omega
    · exact ih h12 h23

theorem strcasecmp_trans (x y z : String) (h1 : strcasecmp x y ≤ 0) (h2 : strcasecmp y z ≤ 0) :
    strcasecmp x z ≤ 0 :=
  strcasecmp_bytes_trans _ _ _ h1 h2


/-- With sizes in `[0, 2^31)` the size comparator is the lexicographic order on
(non-directory flag, size), the size part reversed when descending. -/
theorem file_compare_size_le_iff (a : Panel) (fa fb : FileEntry) (hs : a.sort_by = 1)
    (ha : fa.name ≠ "..") (hb : fb.name ≠ "..")
    (ba : 0 ≤ fa.size ∧ fa.size < 2147483648) (bb : 0 ≤ fb.size ∧ fb.size < 2147483648) :
    file_compare a fa fb ≤ 0 ↔
      (fa.is_dir = true ∧ fb.is_dir = false) ∨
      (fa.is_dir = fb.is_dir ∧
        (if a.sort_order ≠ 0 then fb.size ≤ fa.size else fa.size ≤ fb.size)) := by
  cases hda : fa.is_dir <;> cases hdb : fb.is_dir
  · rw [file_compare_size a fa fb hs ha hb (by rw [hda, hdb])]
    split
    · rw [to_int32_small _ (by omega) (by omega)]; simp
    · rw [to_int32_small _ (by omega) (by omega)]; simp
  · rw [(file_compare_dir_first a fb fa hb ha hdb hda).2]; simp
  · rw [(file_compare_dir_first a fa fb ha hb hda hdb).1]; simp
  · rw [file_compare_size a fa fb hs ha hb (by rw [hda, hdb])]
    split
    · rw [to_int32_small _ (by omega) (by omega)]; simp
    · rw [to_int32_small _ (by omega) (by omega)]; simp

theorem file_compare_size_total (a : Panel) (fa fb : FileEntry) (hs : a.sort_by = 1)
    (ha : fa.name ≠ "..") (hb : fb.name ≠ "..")
    (ba : 0 ≤ fa.size ∧ fa.size < 2147483648) (bb : 0 ≤ fb.size ∧ fb.size < 2147483648)
    (h : ¬ file_compare a fa fb ≤ 0) : file_compare a fb fa ≤ 0 := by
  rw [file_compare_size_le_iff a fa fb hs ha hb ba bb] at h
  rw [file_compare_size_le_iff a fb fa hs hb ha bb ba]
  cases hda : fa.is_dir <;> cases hdb : fb.is_dir <;> simp [hda, hdb] at h ⊢
  all_goals (split at h <;> simp_all <;> omega)

theorem file_compare_size_trans (a : Panel) (fa fb fc : FileEntry) (hs : a.sort_by = 1)
    (ha : fa.name ≠ "..") (hb : fb.name ≠ "..") (hc : fc.name ≠ "..")
    (ba : 0 ≤ fa.size ∧ fa.size < 2147483648) (bb : 0 ≤ fb.size ∧ fb.size < 2147483648)
    (bc : 0 ≤ fc.size ∧ fc.size < 2147483648)
    (h1 : file_compare a fa fb ≤ 0) (h2 : file_compare a fb fc ≤ 0) :
    file_compare a fa fc ≤ 0 := by
  rw [file_compare_size_le_iff a fa fb hs ha hb ba bb] at h1
  rw [file_compare_size_le_iff a fb fc hs hb hc bb bc] at h2
  rw [file_compare_size_le_iff a fa fc hs ha hc ba bc]
  cases hda : fa.is_dir <;> cases hdb : fb.is_dir <;> cases hdc : fc.is_dir <;>
    simp [hda, hdb, hdc] at h1 h2 ⊢
  all_goals (split at h1 <;> simp_all <;> omega)


/-- The name comparator is the lexicographic order on (non-directory flag,
case-folded name), the name part reversed when descending. -/
theorem file_compare_name_le_iff (a : Panel) (fa fb : FileEntry) (hs : a.sort_by = 0)
    (ha : fa.name ≠ "..") (hb : fb.name ≠ "..") :
    file_compare a fa fb ≤ 0 ↔
      (fa.is_dir = true ∧ fb.is_dir = false) ∨
      (fa.is_dir = fb.is_dir ∧
        (if a.sort_order ≠ 0 then strcasecmp fb.name fa.name ≤ 0
         else strcasecmp fa.name fb.name ≤ 0)) := by
  have hneg := strcasecmp_neg fa.name fb.name
  cases hda : fa.is_dir <;> cases hdb : fb.is_dir
  · rw [file_compare_name a fa fb hs ha hb (by rw [hda, hdb])]
    split <;> simp
    omega
  · rw [(file_compare_dir_first a fb fa hb ha hdb hda).2]; simp
  · rw [(file_compare_dir_first a fa fb ha hb hda hdb).1]; simp
  · rw [file_compare_name a fa fb hs ha hb (by rw [hda, hdb])]
    split <;> simp
    omega

theorem file_compare_name_total (a : Panel) (fa fb : FileEntry) (hs : a.sort_by = 0)
    (ha : fa.name ≠ "..") (hb : fb.name ≠ "..")
    (h : ¬ file_compare a fa fb ≤ 0) : file_compare a fb fa ≤ 0 := by
  rw [file_compare_name_le_iff a fa fb hs ha hb] at h
  rw [file_compare_name_le_iff a fb fa hs hb ha]
  have hneg := strcasecmp_neg fa.name fb.name
  cases hda : fa.is_dir <;> cases hdb : fb.is_dir <;> simp [hda, hdb] at h ⊢
  all_goals (split at h <;> simp_all <;> omega)

theorem file_compare_name_trans (a : Panel) (fa fb fc : FileEntry) (hs : a.sort_by = 0)
    (ha : fa.name ≠ "..") (hb : fb.name ≠ "..") (hc : fc.name ≠ "..")
    (h1 : file_compare a fa fb ≤ 0) (h2 : file_compare a fb fc ≤ 0) :
    file_compare a fa fc ≤ 0 := by
  rw [file_compare_name_le_iff a fa fb hs ha hb] at h1
  rw [file_compare_name_le_iff a fb fc hs hb hc] at h2
  rw [file_compare_name_le_iff a fa fc hs ha hc]
  have t1 := strcasecmp_trans fa.name fb.name fc.name
  have t2 := strcasecmp_trans fc.name fb.name fa.name
  cases hda : fa.is_dir <;> cases hdb : fb.is_dir <;> cases hdc : fc.is_dir <;>
    simp [hda, hdb, hdc] at h1 h2 ⊢
  all_goals (split at h1 <;> simp_all)

/-- Name sort of a list without `..` entries is ordered by the comparator. -/
theorem qsort_name_pairwise (a : Panel) (l : List FileEntry) (hs : a.sort_by = 0)
    (hn : ∀ e ∈ l, e.name ≠ "..") :
    (qsort (file_compare a) l).Pairwise fun x y => file_compare a x y ≤ 0 :=
  qsort_pairwise _ l
    (fun x hx y hy => file_compare_name_total a x y hs (hn x hx) (hn y hy))
    (fun x hx y hy z hz => file_compare_name_trans a x y z hs (hn x hx) (hn y hy) (hn z hz))

/-- Core of the name-sort reversal: among the entries selected by `f`, all of
one directory-ness, the descending order is the reverse of the ascending one,
provided no two distinct entries of that kind have names that `strcasecmp`
calls equal. -/
theorem name_sort_reverse_filter (asc desc : Panel) (l : List FileEntry)
    (f : FileEntry → Bool) (flag : Bool) (hf : ∀ e, f e = true → e.is_dir = flag)
    (ha : asc.sort_by = 0) (ha' : asc.sort_order = 0)
    (hd : desc.sort_by = 0) (hd' : desc.sort_order ≠ 0)
    (hn : ∀ e ∈ l, e.name ≠ "..")
    (hdist : ∀ x ∈ l, ∀ y ∈ l, x.is_dir = y.is_dir → strcasecmp x.name y.name = 0 → x = y) :
    (qsort (file_compare desc) l).filter f = ((qsort (file_compare asc) l).filter f).reverse := by
  have memD : ∀ x, x ∈ (qsort (file_compare desc) l).filter f → x ∈ l ∧ x.is_dir = flag := by
    intro x hx
    have := List.mem_filter.mp hx
    exact ⟨(mem_qsort _ _ _).mp this.1, hf x this.2⟩
  have memA : ∀ x, x ∈ (qsort (file_compare asc) l).filter f → x ∈ l ∧ x.is_dir = flag := by
    intro x hx
    have := List.mem_filter.mp hx
    exact ⟨(mem_qsort _ _ _).mp this.1, hf x this.2⟩
  apply ordered_perm_unique (fun x y : FileEntry => strcasecmp y.name x.name ≤ 0)
  · intro x hx y hy h1 h2
    have hxy := strcasecmp_neg x.name y.name
    have mx := memD x hx
    have my := memD y hy
    exact hdist x mx.1 y my.1 (by rw [mx.2, my.2]) (by omega)
  · exact ((qsort_perm _ l).filter _).trans
      (((qsort_perm _ l).filter _).symm.trans (List.reverse_perm _).symm)
  · refine List.Pairwise.imp_of_mem ?_ ((qsort_name_pairwise desc l hd hn).filter _)
    intro x y hx hy hxy
    have mx := memD x hx
    have my := memD y hy
    rw [file_compare_name_le_iff desc x y hd (hn x mx.1) (hn y my.1)] at hxy
    simp [mx.2, my.2, hd'] at hxy
    exact hxy
  · rw [List.pairwise_reverse]
    refine List.Pairwise.imp_of_mem ?_ ((qsort_name_pairwise asc l ha hn).filter _)
    intro x y hx hy hxy
    have mx := memA x hx
    have my := memA y hy
    rw [file_compare_name_le_iff asc x y ha (hn x mx.1) (hn y my.1)] at hxy
    simp [mx.2, my.2, ha'] at hxy
    exact hxy


/-! ## Lemmas on the state plumbing -/

@[simp] theorem panel_set_panel_same {σ : Type} (s : State σ) (r : PanelRef) (p : Panel) :
    (s.set_panel r p).panel r = p := by
  cases r <;> rfl

theorem panel_set_panel_other {σ : Type} (s : State σ) (r r' : PanelRef) (p : Panel)
    (h : r' ≠ r) : (s.set_panel r p).panel r' = s.panel r' := by
  cases r <;> cases r' <;> first | rfl | exact absurd rfl h

@[simp] theorem fs_set_panel {σ : Type} (s : State σ) (r : PanelRef) (p : Panel) :
    (s.set_panel r p).fs = s.fs := by
  cases r <;> rfl

@[simp] theorem trace_set_panel {σ : Type} (s : State σ) (r : PanelRef) (p : Panel) :
    (s.set_panel r p).trace = s.trace := by
  cases r <;> rfl

@[simp] theorem errors_set_panel {σ : Type} (s : State σ) (r : PanelRef) (p : Panel) :
    (s.set_panel r p).errors = s.errors := by
  cases r <;> rfl

@[simp] theorem active_set_panel {σ : Type} (s : State σ) (r : PanelRef) (p : Panel) :
    (s.set_panel r p).active_panel = s.active_panel := by
  cases r <;> rfl

@[simp] theorem panel_call {σ : Type} (s : State σ) (c : Syscall) (r : PanelRef) :
    (s.call c).panel r = s.panel r := by
  cases r <;> rfl

@[simp] theorem fs_call {σ : Type} (s : State σ) (c : Syscall) : (s.call c).fs = s.fs := rfl

@[simp] theorem trace_call {σ : Type} (s : State σ) (c : Syscall) :
    (s.call c).trace = s.trace ++ [c] := rfl

@[simp] theorem active_call {σ : Type} (s : State σ) (c : Syscall) :
    (s.call c).active_panel = s.active_panel := rfl

@[simp] theorem panel_display_error {σ : Type} (s : State σ) (m : String) (r : PanelRef) :
    (display_error m s).panel r = s.panel r := by
  cases r <;> rfl

@[simp] theorem fs_display_error {σ : Type} (s : State σ) (m : String) :
    (display_error m s).fs = s.fs := rfl

@[simp] theorem trace_display_error {σ : Type} (s : State σ) (m : String) :
    (display_error m s).trace = s.trace := rfl

@[simp] theorem active_display_error {σ : Type} (s : State σ) (m : String) :
    (display_error m s).active_panel = s.active_panel := rfl

theorem listed_mono {σ : Type} (os : Sys σ) (fs : σ) (dir : String) (d : String)
    (names : List String) (e : FileEntry) (h : listed os fs dir names e) :
    listed os fs dir (d :: names) e := by
  obtain ⟨x, hx, h1, h2, h3⟩ := h
  exact ⟨x, List.mem_cons_of_mem _ hx, h1, h2, h3⟩

/-- What the `readdir` loop does to the state: it appends records of listed
names to the panel and `stat` calls to the trace, and nothing else. -/
theorem read_entries_spec {σ : Type} (os : Sys σ) (r : PanelRef) :
    ∀ (names : List String) (s : State σ),
      (read_entries os r names s).fs = s.fs ∧
      (read_entries os r names s).active_panel = s.active_panel ∧
      (∀ r', r' ≠ r → (read_entries os r names s).panel r' = s.panel r') ∧
      ((read_entries os r names s).panel r).current_path = (s.panel r).current_path ∧
      ((read_entries os r names s).panel r).selected = (s.panel r).selected ∧
      ((read_entries os r names s).panel r).scroll_pos = (s.panel r).scroll_pos ∧
      ((read_entries os r names s).panel r).sort_by = (s.panel r).sort_by ∧
      ((read_entries os r names s).panel r).sort_order = (s.panel r).sort_order ∧
      (s.panel r).num_files ≤ ((read_entries os r names s).panel r).num_files ∧
      ((s.panel r).num_files ≤ MAX_FILES →
        ((read_entries os r names s).panel r).num_files ≤ MAX_FILES) ∧
      (∀ i, i < (s.panel r).num_files →
        ((read_entries os r names s).panel r).files i = (s.panel r).files i) ∧
      (∀ i, (s.panel r).num_files ≤ i → i < ((read_entries os r names s).panel r).num_files →
        listed os s.fs (s.panel r).current_path names
          (((read_entries os r names s).panel r).files i)) ∧
      s.trace <+: (read_entries os r names s).trace
  | [], s => by
    rw [read_entries]
    refine ⟨rfl, rfl, fun _ _ => rfl, rfl, rfl, rfl, rfl, rfl, le_refl _, id, fun _ _ => rfl,
      ?_, List.prefix_refl _⟩
    intro i h1 h2
    omega
  | d :: rest, s => by
    rw [read_entries]
    split
    · rename_i hlt
      split
      · obtain ⟨h1, h2, h3, h4, h5, h6, h7, h8, h9, h10, h11, h12, h13⟩ :=
          read_entries_spec os r rest s
        exact ⟨h1, h2, h3, h4, h5, h6, h7, h8, h9, h10, h11,
          fun i hi hi' => listed_mono _ _ _ _ _ _ (h12 i hi hi'), h13⟩
      · rename_i hd
        push_neg at hd
        simp only [fs_call, panel_call]
        cases hst : os.stat s.fs (path_join (s.panel r).current_path d) with
        | none =>
          simp only []
          obtain ⟨h1, h2, h3, h4, h5, h6, h7, h8, h9, h10, h11, h12, h13⟩ :=
            read_entries_spec os r rest (s.call (.stat (path_join (s.panel r).current_path d)))
          simp only [fs_call, panel_call, active_call, trace_call] at h1 h2 h3 h4 h5 h6 h7 h8 h9 h10 h11 h12 h13
          exact ⟨h1, h2, h3, h4, h5, h6, h7, h8, h9, h10, h11,
            fun i hi hi' => listed_mono _ _ _ _ _ _ (h12 i hi hi'),
            (List.prefix_append _ _).trans h13⟩
        | some st =>
          simp only []
          obtain ⟨h1, h2, h3, h4, h5, h6, h7, h8, h9, h10, h11, h12, h13⟩ :=
            read_entries_spec os r rest
              ((s.call (.stat (path_join (s.panel r).current_path d))).set_panel r
                ((s.panel r).push (make_entry d st)))
          simp only [fs_call, panel_call, active_call, trace_call, fs_set_panel,
            panel_set_panel_same, active_set_panel, trace_set_panel] at h1 h2 h3 h4 h5 h6 h7 h8 h9 h10 h11 h12 h13
          have hpush : ((s.panel r).push (make_entry d st)).num_files = (s.panel r).num_files + 1 :=
            rfl
          have hcur : ((s.panel r).push (make_entry d st)).current_path = (s.panel r).current_path :=
            rfl
          rw [hpush] at h9 h10 h11 h12
          rw [hcur] at h12
          refine ⟨h1, h2, ?_, h4, h5, h6, h7, h8, by omega, fun _ => h10 (by omega), ?_, ?_,
            (List.prefix_append _ _).trans h13⟩
          · intro r' hr'
            rw [h3 r' hr', panel_set_panel_other _ _ _ _ hr', panel_call]
          · intro i hi
            rw [h11 i (by omega)]
            simp [Panel.push, Nat.ne_of_lt hi]
          · intro i hi hi'
            by_cases hin : i = (s.panel r).num_files
            · subst hin
              rw [h11 _ (by omega)]
              simp only [Panel.push, if_true]
              exact ⟨d, List.mem_cons_self _ _, hd.1, hd.2, st, hst, rfl⟩
            · exact listed_mono _ _ _ _ _ _ (h12 i (by omega) hi')
    · refine ⟨rfl, rfl, fun _ _ => rfl, rfl, rfl, rfl, rfl, rfl, le_refl _, id, fun _ _ => rfl,
        ?_, List.prefix_refl _⟩
      intro i h1 h2
      omega


/-- What `read_directory` does to the state. -/
theorem read_directory_spec {σ : Type} (os : Sys σ) (r : PanelRef) (s : State σ) :
    (read_directory os r s).active_panel = s.active_panel ∧
    (∀ r', r' ≠ r → (read_directory os r s).panel r' = s.panel r') ∧
    ((read_directory os r s).panel r).current_path = (s.panel r).current_path ∧
    ((read_directory os r s).panel r).selected = (s.panel r).selected ∧
    ((read_directory os r s).panel r).scroll_pos = (s.panel r).scroll_pos ∧
    ((read_directory os r s).panel r).sort_by = (s.panel r).sort_by ∧
    ((read_directory os r s).panel r).sort_order = (s.panel r).sort_order ∧
    1 ≤ ((read_directory os r s).panel r).num_files ∧
    ((read_directory os r s).panel r).num_files ≤ MAX_FILES ∧
    ((read_directory os r s).panel r).files 0 =
      { (s.panel r).files 0 with name := "..", is_dir := true } ∧
    (∀ e ∈ ((read_directory os r s).panel r).listing.tail,
      ∃ names, os.opendir s.fs (s.panel r).current_path = some names ∧
        listed os s.fs (s.panel r).current_path names e) ∧
    s.trace ++ [Syscall.opendir (s.panel r).current_path] <+: (read_directory os r s).trace := by
  unfold read_directory
  simp only [fs_call, fs_set_panel]
  cases hop : os.opendir s.fs (s.panel r).current_path with
  | none =>
    simp only [panel_display_error, panel_call, panel_set_panel_same, active_display_error,
      active_call, active_set_panel, trace_display_error, trace_call, trace_set_panel]
    refine ⟨?_, ?_, ?_, ?_, ?_, ?_, ?_, ?_, ?_, ?_, ?_, ?_⟩
    · trivial
    · intro r' hr'
      exact panel_set_panel_other _ _ _ _ hr'
    · trivial
    · trivial
    · trivial
    · trivial
    · trivial
    · exact le_refl _
    · decide
    · simp
    · intro e he
      rw [mem_listing_tail] at he
      obtain ⟨i, hi1, hi2, -⟩ := he
      simp only at hi2
      omega
    · exact List.prefix_refl _
  | some names =>
    simp only []
    obtain ⟨-, h2, h3, h4, h5, h6, h7, h8, h9, h10, h11, h12, h13⟩ :=
      read_entries_spec os r names
        ((s.set_panel r
          { s.panel r with
            files := fun i =>
              if i = 0 then { (s.panel r).files 0 with name := "..", is_dir := true }
              else (s.panel r).files i
            num_files := 1 }).call (.opendir (s.panel r).current_path))
    simp only [panel_call, panel_set_panel_same, active_call, active_set_panel, trace_call,
      trace_set_panel, fs_call, fs_set_panel] at h2 h3 h4 h5 h6 h7 h8 h9 h10 h11 h12 h13
    simp only [panel_set_panel_same, active_set_panel, trace_set_panel, sort_files_num_files]
    refine ⟨h2, ?_, h4, h5, h6, h7, h8, h9, h10 (by decide), ?_, ?_, h13⟩
    · intro r' hr'
      rw [panel_set_panel_other _ _ _ _ hr', h3 r' hr', panel_set_panel_other _ _ _ _ hr']
    · rw [sort_files_files_zero, h11 0 (by decide)]
      simp
    · intro e he
      rw [sort_files_listing_tail, mem_qsort, mem_listing_tail] at he
      obtain ⟨i, hi1, hi2, rfl⟩ := he
      exact ⟨names, rfl, h12 i hi1 hi2⟩

theorem copy_file_trace {σ : Type} (os : Sys σ) (src dst : String) (s : State σ) :
    s.trace <+: (copy_file os src dst s).trace := by
  unfold copy_file
  dsimp only
  split
  · exact List.prefix_refl _
  · split
    · simp
    · simp only [fs_call]
      split
      · simp
      · split
        · simp only [State.call, List.append_assoc]
          exact List.prefix_append _ _
        · simp only [State.call, List.append_assoc]
          exact List.prefix_append _ _

theorem copy_file_trace_open {σ : Type} (os : Sys σ) (src dst : String) (s : State σ)
    (h : src ≠ "..") : s.trace ++ [Syscall.fopen_rb src] <+: (copy_file os src dst s).trace := by
  unfold copy_file
  dsimp only
  rw [if_neg h]
  split
  · simp
  · simp only [fs_call]
    split
    · simp
    · split
      · simp only [State.call]
        rw [List.append_assoc (s.trace ++ [Syscall.fopen_rb src]),
          List.append_assoc (s.trace ++ [Syscall.fopen_rb src])]
        exact List.prefix_append _ _
      · simp only [State.call]
        rw [List.append_assoc (s.trace ++ [Syscall.fopen_rb src])]
        exact List.prefix_append _ _

theorem delete_file_trace {σ : Type} (os : Sys σ) (path : String) (s : State σ) :
    s.trace <+: (delete_file os path s).trace := by
  unfold delete_file
  dsimp only
  simp only [fs_call]
  split
  · simp
  · split
    · split <;> simp [State.call]
    · split <;> simp [State.call]

theorem move_file_trace {σ : Type} (os : Sys σ) (src dst : String) (s : State σ) :
    s.trace ++ [Syscall.rename src dst] <+: (move_file os src dst s).trace := by
  unfold move_file
  dsimp only
  simp only [fs_call]
  split
  · simp [State.call]
  · have h1 := copy_file_trace os src dst (s.call (Syscall.rename src dst))
    have h2 := delete_file_trace os src (copy_file os src dst (s.call (Syscall.rename src dst)))
    exact h1.trans h2

theorem read_directory_trace {σ : Type} (os : Sys σ) (r : PanelRef) (s : State σ) :
    s.trace <+: (read_directory os r s).trace :=
  (List.prefix_append _ _).trans (read_directory_spec os r s).2.2.2.2.2.2.2.2.2.2.2

theorem path_join_ne_dotdot (dir name : String) : path_join dir name ≠ ".." := by
  intro h
  have hdd : "..".data = ['.', '.'] := rfl
  have hd : (path_join dir name).data = ['.', '.'] := by rw [h, hdd]
  have hL : (path_join dir name).data = (dir.data ++ '/' :: name.data).take 1023 := by
    show ((dir ++ "/" ++ name).data).take 1023 = _
    rw [String.data_append, String.data_append]
    have hs : "/".data = ['/'] := rfl
    rw [hs, List.append_assoc]
    rfl
  rw [hL] at hd
  have hlen := congrArg List.length hd
  rw [List.length_take] at hlen
  simp only [List.length_cons, List.length_nil] at hlen
  rw [List.take_of_length_le (by omega)] at hd
  have hmem : '/' ∈ dir.data ++ '/' :: name.data := by simp
  rw [hd] at hmem
  exact absurd hmem (by decide)


/-- In the output of `sort_files` on a listing with pinned `..` no
non-directory comes before a directory. -/
theorem sort_files_dirs_first (active p : Panel) (hwf : p.dotdot_pinned) :
    (sort_files active p).listing.Pairwise fun x y => x.is_dir = false → y.is_dir = false := by
  obtain ⟨h1, -, h0, hn⟩ := hwf
  rw [sort_files_listing active p h1]
  refine List.pairwise_cons.mpr ⟨?_, ?_⟩
  · intro y _ hx
    rw [h0] at hx
    exact absurd hx (by decide)
  · apply qsort_flag_first (file_compare active) (fun e => e.is_dir)
    · intro a ha b hb hda hdb
      rw [(file_compare_dir_first active a b (hn a ha) (hn b hb) hda hdb).1]
      decide
    · intro a ha b hb hda hdb
      rw [(file_compare_dir_first active b a (hn b hb) (hn a ha) hdb hda).2]
      decide

/-- A name shorter than the name buffer is stored unchanged. -/
theorem snprintf_short (size : Nat) (d : String) (h : d.length < size) : snprintf size d = d := by
  unfold snprintf
  apply String.ext
  show d.data.take (size - 1) = d.data
  apply List.take_of_length_le
  have : d.data.length = d.length := rfl
  omega

/-- A stored name that is shorter than the buffer allows is the whole name. -/
theorem snprintf_eq_short (d t : String) (ht : t.length < MAX_FILENAME_LEN - 1)
    (h : snprintf MAX_FILENAME_LEN d = t) : d = t := by
  have hd : d.data.take (MAX_FILENAME_LEN - 1) = t.data := congrArg String.data h
  have hlen := congrArg List.length hd
  rw [List.length_take] at hlen
  have htl : t.data.length = t.length := rfl
  have hle : d.data.length ≤ MAX_FILENAME_LEN - 1 := by omega
  rw [List.take_of_length_le hle] at hd
  exact String.ext hd

theorem listed_name_ne {σ : Type} (os : Sys σ) (fs : σ) (dir : String) (names : List String)
    (e : FileEntry) (h : listed os fs dir names e) : e.name ≠ "." ∧ e.name ≠ ".." := by
  obtain ⟨d, -, h1, h2, st, -, rfl⟩ := h
  constructor
  · intro hc
    exact h1 (snprintf_eq_short d "." (by decide) hc)
  · intro hc
    exact h2 (snprintf_eq_short d ".." (by decide) hc)

/-- The sort toggles keep the number of entries and entry 0 of the active panel. -/
theorem toggle_frame {σ : Type} (os : Sys σ) (s : State σ) (k : Char)
    (hk : k = 's' ∨ k = 'r') :
    ((handle_input os (.ch k) s).panel s.active_panel).num_files =
        (s.panel s.active_panel).num_files ∧
      ((handle_input os (.ch k) s).panel s.active_panel).files 0 =
        (s.panel s.active_panel).files 0 ∧
      ((handle_input os (.ch k) s).panel s.active_panel).selected =
        (s.panel s.active_panel).selected := by
  rcases hk with rfl | rfl
  · show ((s.set_panel s.active_panel (sort_files _ _)).panel s.active_panel).num_files = _ ∧
      ((s.set_panel s.active_panel (sort_files _ _)).panel s.active_panel).files 0 = _ ∧
      ((s.set_panel s.active_panel (sort_files _ _)).panel s.active_panel).selected = _
    rw [panel_set_panel_same]
    exact ⟨rfl, sort_files_files_zero _ _, rfl⟩
  · show ((s.set_panel s.active_panel (sort_files _ _)).panel s.active_panel).num_files = _ ∧
      ((s.set_panel s.active_panel (sort_files _ _)).panel s.active_panel).files 0 = _ ∧
      ((s.set_panel s.active_panel (sort_files _ _)).panel s.active_panel).selected = _
    rw [panel_set_panel_same]
    exact ⟨rfl, sort_files_files_zero _ _, rfl⟩


/-- When `opendir` fails, `read_directory` leaves the entry `..` alone. -/
theorem read_directory_unlistable {σ : Type} (os : Sys σ) (r : PanelRef) (s : State σ)
    (hop : os.opendir s.fs (s.panel r).current_path = none) :
    ((read_directory os r s).panel r).num_files = 1 := by
  obtain ⟨-, -, -, -, -, -, -, h8, -, -, h11, -⟩ := read_directory_spec os r s
  have hnil : ((read_directory os r s).panel r).listing.tail = [] := by
    apply List.eq_nil_iff_forall_not_mem.mpr
    intro e he
    obtain ⟨names, hn, -⟩ := h11 e he
    rw [hop] at hn
    exact absurd hn (by simp)
  have hlen := congrArg List.length hnil
  rw [List.length_tail, listing_length] at hlen
  simp only [List.length_nil] at hlen
  omega

/-- When `opendir` fails, `read_directory` shows its error message, and
nothing else is reported. -/
theorem read_directory_unlistable_errors {σ : Type} (os : Sys σ) (r : PanelRef) (s : State σ)
    (hop : os.opendir s.fs (s.panel r).current_path = none) :
    (read_directory os r s).errors = s.errors ++ ["Impossibile aprire la directory"] := by
  unfold read_directory
  simp only [fs_call, fs_set_panel, hop]
  show ((s.set_panel r _).call _).errors ++ _ = _
  rw [show ∀ (t : State σ) (c : Syscall), (t.call c).errors = t.errors from fun _ _ => rfl,
    errors_set_panel]

/-- A panel with one entry lists just the name of entry 0. -/
theorem names_of_single (p : Panel) (h : p.num_files = 1) : p.names = [(p.files 0).name] := by
  unfold Panel.names Panel.listing
  rw [h]
  rfl

/-- The panel that `read_directory` leaves has the pinned `..` entry. -/
theorem read_directory_dotdot_pinned {σ : Type} (os : Sys σ) (r : PanelRef) (s : State σ) :
    ((read_directory os r s).panel r).dotdot_pinned := by
  obtain ⟨-, -, -, -, -, -, -, h8, -, h10, h11, -⟩ := read_directory_spec os r s
  refine ⟨h8, by rw [h10], by rw [h10], ?_⟩
  intro e he
  obtain ⟨names, -, hl⟩ := h11 e he
  exact (listed_name_ne os _ _ _ _ hl).2

/-- The listing that `read_directory` leaves has no non-directory before a
directory, whichever panel is active. -/
theorem read_directory_dirs_first {σ : Type} (os : Sys σ) (r : PanelRef) (s : State σ) :
    ((read_directory os r s).panel r).listing.Pairwise
      fun x y => x.is_dir = false → y.is_dir = false := by
  unfold read_directory
  simp only [fs_call, fs_set_panel]
  cases hop : os.opendir s.fs (s.panel r).current_path with
  | none =>
    simp only [panel_display_error, panel_call, panel_set_panel_same]
    rw [listing_cons _ (le_refl 1)]
    refine List.pairwise_cons.mpr ⟨?_, ?_⟩
    · intro y _ hx
      simp at hx
    · have hnil : ∀ (q : Panel), q.num_files = 1 → q.listing.tail = [] := by
        intro q hq
        rw [listing_tail, hq]
        rfl
      rw [hnil _ rfl]
      exact List.Pairwise.nil
  | some names =>
    simp only [panel_set_panel_same]
    apply sort_files_dirs_first
    obtain ⟨-, -, -, -, -, -, -, -, h9, -, h11, h12, -⟩ :=
      read_entries_spec os r names
        ((s.set_panel r
          { s.panel r with
            files := fun i =>
              if i = 0 then { (s.panel r).files 0 with name := "..", is_dir := true }
              else (s.panel r).files i
            num_files := 1 }).call (.opendir (s.panel r).current_path))
    simp only [panel_call, panel_set_panel_same, fs_call, fs_set_panel] at h9 h11 h12
    refine ⟨h9, ?_, ?_, ?_⟩
    · rw [h11 0 (by decide)]
      simp
    · rw [h11 0 (by decide)]
      simp
    · intro e he
      rw [mem_listing_tail] at he
      obtain ⟨i, hi1, hi2, rfl⟩ := he
      exact (listed_name_ne os _ _ _ _ (h12 i hi1 hi2)).2


/-! ## The claims -/

/-- C1 (move safety on a failed fallback copy): what `move_file` does at the
inputs of the claim. Whenever `rename` fails and the copy step fails (the
source cannot be opened for reading, or the destination cannot be opened for
writing), `delete_file(src)` still runs: if `src` is a regular file that
`unlink` can remove, `unlink(src)` is issued and the file system after the move
is the one in which `src` has been unlinked. -/
theorem move_file_failed_copy_unlinks_source {σ : Type} (os : Sys σ) (src dst : String)
    (s : State σ) (st : Stat) (fs' : σ)
    (hren : os.rename s.fs src dst = none)
    (hcopy : os.fopen_rb s.fs src = false ∨ os.fopen_wb s.fs dst = none)
    (hstat : os.stat s.fs src = some st) (hreg : S_ISDIR st.st_mode = false)
    (hunl : os.unlink s.fs src = some fs') :
    (move_file os src dst s).fs = fs' ∧
    Syscall.unlink src ∈ (move_file os src dst s).trace := by
  have hdel : ∀ t : State σ, t.fs = s.fs →
      (delete_file os src t).fs = fs' ∧ Syscall.unlink src ∈ (delete_file os src t).trace := by
    intro t ht
    unfold delete_file
    simp only [fs_call, ht, hstat, hreg, hunl]
    simp [State.call]
  have hcp : (copy_file os src dst (s.call (Syscall.rename src dst))).fs = s.fs := by
    unfold copy_file
    dsimp only
    split
    · rfl
    · simp only [fs_call]
      rcases hcopy with h | h
      · simp [h]
      · split
        · rfl
        · simp [h]
  unfold move_file
  simp only [fs_call, hren]
  exact hdel _ hcp

/-- Witness for C1, the failing input: with `/src/f` present, `rename` refused
and `/ro/f` not creatable, the copy step fails with an error message and the
source is unlinked all the same; afterwards `/src/f` does not exist. The same
happens when the source cannot be opened for reading. -/
theorem move_file_failed_copy_unlinks_source_witness :
    (sim.rename fs_move "/src/f" "/ro/f" = none ∧
      sim.fopen_wb fs_move "/ro/f" = none ∧
      sim.stat fs_move "/src/f" = some ⟨2, 33188, 0⟩ ∧
      sim.unlink fs_move "/src/f" = some (fs_move.remove "/src/f")) ∧
    (move_file sim "/src/f" "/ro/f" (init_panels sim fs_move)).fs = fs_move.remove "/src/f" ∧
    (move_file sim "/src/f" "/ro/f" (init_panels sim fs_move)).errors =
      ["Impossibile creare il file destinazione"] ∧
    (move_file sim "/src/f" "/ro/f" (init_panels sim fs_move)).trace =
      [.rename "/src/f" "/ro/f", .fopen_rb "/src/f", .fopen_wb "/ro/f", .stat "/src/f",
        .unlink "/src/f"] ∧
    sim.stat (move_file sim "/src/f" "/ro/f" (init_panels sim fs_move)).fs "/src/f" = none ∧
    sim.fopen_rb fs_move_unreadable "/src/f" = false ∧
    (move_file sim "/src/f" "/ro/f" (init_panels sim fs_move_unreadable)).errors =
      ["Impossibile aprire il file sorgente"] ∧
    (move_file sim "/src/f" "/ro/f" (init_panels sim fs_move_unreadable)).trace =
      [.rename "/src/f" "/ro/f", .fopen_rb "/src/f", .stat "/src/f", .unlink "/src/f"] ∧
    sim.stat (move_file sim "/src/f" "/ro/f" (init_panels sim fs_move_unreadable)).fs "/src/f" =
      none :=
  ⟨⟨by decide, by decide, by decide, by decide⟩,
    (move_file_failed_copy_unlinks_source sim "/src/f" "/ro/f" (init_panels sim fs_move)
      ⟨2, 33188, 0⟩ (fs_move.remove "/src/f") (by decide) (Or.inr (by decide)) (by decide)
      (by decide) (by decide)).1,
    by decide, by decide, by decide, by decide, by decide, by decide, by decide⟩

/-- C2 (selection validity), evaluated at a failing input. From the start-up
state in a directory with one file, `KEY_DOWN` selects the file (index 1 of 2)
and `F8` deletes it: the refreshed listing has one entry and `selected` is
still 1, so `selected < num_files` fails. -/
theorem delete_leaves_selection_past_end :
    (main_loop sim [.KEY_DOWN] (startup sim fs_single)).left_panel.names = ["..", "a"] ∧
    (main_loop sim [.KEY_DOWN] (startup sim fs_single)).left_panel.selected = 1 ∧
    (main_loop sim [.KEY_DOWN, .KEY_F 8] (startup sim fs_single)).active_panel = .left ∧
    (main_loop sim [.KEY_DOWN, .KEY_F 8] (startup sim fs_single)).errors = [] ∧
    (main_loop sim [.KEY_DOWN, .KEY_F 8] (startup sim fs_single)).left_panel.names = [".."] ∧
    (main_loop sim [.KEY_DOWN, .KEY_F 8] (startup sim fs_single)).left_panel.num_files = 1 ∧
    (main_loop sim [.KEY_DOWN, .KEY_F 8] (startup sim fs_single)).left_panel.selected = 1 := by
  refine ⟨?_, ?_, ?_, ?_, ?_, ?_, ?_⟩ <;> decide

/-- C3 (the pinned `..` entry as operand): what the dispatcher does when the
selected entry of the active panel is named `..`. Delete (`F8`) returns without
any call. Move (`F6`) is not guarded and calls `rename` on the `..` paths. Copy
(`F5`) passes the full path to `copy_file`, whose guard compares it with the
bare name `..` and so never fires: the source path is opened for reading. -/
theorem dotdot_reaches_move_and_copy {σ : Type} (os : Sys σ) (s : State σ)
    (h : (s.panel s.active_panel).selected_file.name = "..") :
    handle_input os (.KEY_F 8) s = s ∧
    s.trace ++ [Syscall.rename (path_join (s.panel s.active_panel).current_path "..")
        (path_join (s.panel s.active_panel.other).current_path "..")] <+:
      (handle_input os (.KEY_F 6) s).trace ∧
    s.trace ++ [Syscall.fopen_rb (path_join (s.panel s.active_panel).current_path "..")] <+:
      (handle_input os (.KEY_F 5) s).trace := by
  refine ⟨?_, ?_, ?_⟩
  · show (if (s.panel s.active_panel).selected_file.name = ".." then s else _) = s
    rw [if_pos h]
  · show _ <+: (read_directory os s.active_panel.other (read_directory os s.active_panel
      (move_file os (path_join (s.panel s.active_panel).current_path
        (s.panel s.active_panel).selected_file.name)
        (path_join (s.panel s.active_panel.other).current_path
          (s.panel s.active_panel).selected_file.name) s))).trace
    rw [h]
    exact ((move_file_trace os _ _ s).trans (read_directory_trace os _ _)).trans
      (read_directory_trace os _ _)
  · show _ <+: (read_directory os s.active_panel.other
      (copy_file os (path_join (s.panel s.active_panel).current_path
        (s.panel s.active_panel).selected_file.name)
        (path_join (s.panel s.active_panel.other).current_path
          (s.panel s.active_panel).selected_file.name) s)).trace
    rw [h]
    exact (copy_file_trace_open os _ _ s (path_join_ne_dotdot _ _)).trans
      (read_directory_trace os _ _)

/-- Witness for C3: the start-up state, where `..` is selected. -/
theorem dotdot_reaches_move_and_copy_witness :
    ((startup sim fs_single).panel (startup sim fs_single).active_panel).selected_file.name = ".."
    ∧ (startup sim fs_single).trace ++ [Syscall.rename "/d/.." "/d/.."] <+:
      (handle_input sim (.KEY_F 6) (startup sim fs_single)).trace
    ∧ (startup sim fs_single).trace ++ [Syscall.fopen_rb "/d/.."] <+:
      (handle_input sim (.KEY_F 5) (startup sim fs_single)).trace :=
  ⟨by decide, (dotdot_reaches_move_and_copy sim (startup sim fs_single) (by decide)).2.1,
    (dotdot_reaches_move_and_copy sim (startup sim fs_single) (by decide)).2.2⟩

/-- C4 (sorting per panel), evaluated at a failing input. The left panel
(active, ascending) shows `/l`, the right panel (descending) shows `/r`. After
`F5` the right panel is re-read and sorted with the settings of the active
panel: its entries are in ascending name order although its own `sort_order`
is descending, under which `sort_files` yields the opposite order. -/
theorem refresh_sorts_by_active_panel_settings :
    (main_loop sim keys_two (startup sim fs_two)).active_panel = .left ∧
    (main_loop sim keys_two (startup sim fs_two)).left_panel.sort_order = 0 ∧
    (main_loop sim keys_two (startup sim fs_two)).right_panel.sort_order = 1 ∧
    (main_loop sim keys_two (startup sim fs_two)).right_panel.names = ["..", "b", "a"] ∧
    (main_loop sim (keys_two ++ [.KEY_F 5]) (startup sim fs_two)).right_panel.sort_by = 0 ∧
    (main_loop sim (keys_two ++ [.KEY_F 5]) (startup sim fs_two)).right_panel.sort_order = 1 ∧
    (main_loop sim (keys_two ++ [.KEY_F 5]) (startup sim fs_two)).right_panel.names =
      ["..", "a", "b", "x"] ∧
    (sort_files (main_loop sim (keys_two ++ [.KEY_F 5]) (startup sim fs_two)).right_panel
      (main_loop sim (keys_two ++ [.KEY_F 5]) (startup sim fs_two)).right_panel).names =
      ["..", "x", "b", "a"] := by
  refine ⟨?_, ?_, ?_, ?_, ?_, ?_, ?_, ?_⟩ <;> decide


/-- C5 (directories before non-directories, whatever the direction): for every
setting of the active panel, so for every `sort_by` and `sort_order`, the
comparator gives `-1` for a directory against a non-directory and `1` the other
way round (neither entry named `..`); in the listing that `sort_files` leaves
in a panel with pinned `..` no non-directory comes before a directory; and the
same holds for the listing that `read_directory` leaves, for every behaviour of
the file system. -/
theorem directories_sort_first {σ : Type} (os : Sys σ) (active : Panel) :
    (∀ fa fb : FileEntry, fa.name ≠ ".." → fb.name ≠ ".." → fa.is_dir = true →
      fb.is_dir = false →
        file_compare active fa fb = -1 ∧ file_compare active fb fa = 1) ∧
    (∀ p : Panel, p.dotdot_pinned →
      (sort_files active p).listing.Pairwise
        fun x y => ¬ (x.is_dir = false ∧ y.is_dir = true)) ∧
    (∀ (r : PanelRef) (s : State σ),
      ((read_directory os r s).panel r).listing.Pairwise
        fun x y => ¬ (x.is_dir = false ∧ y.is_dir = true)) := by
  have conv : ∀ l : List FileEntry,
      l.Pairwise (fun x y => x.is_dir = false → y.is_dir = false) →
      l.Pairwise (fun x y => ¬ (x.is_dir = false ∧ y.is_dir = true)) := by
    intro l hl
    refine hl.imp ?_
    intro x y hxy hc
    rw [hxy hc.1] at hc
    exact absurd hc.2 (by decide)
  exact ⟨fun fa fb ha hb hda hdb => file_compare_dir_first active fa fb ha hb hda hdb,
    fun p hwf => conv _ (sort_files_dirs_first active p hwf),
    fun r s => conv _ (read_directory_dirs_first os r s)⟩

/-- Witness for C5: the listing of `/tmp/a` sorted by size, descending. -/
theorem directories_sort_first_witness :
    (startup sim fs_sizes).left_panel.dotdot_pinned ∧
    (sort_files (startup sim fs_sizes).left_panel.by_size.descending
      (startup sim fs_sizes).left_panel).listing.Pairwise
        (fun x y => ¬ (x.is_dir = false ∧ y.is_dir = true)) :=
  ⟨by decide, (directories_sort_first sim _).2.1 _ (by decide)⟩

/-- C6 (size sort): when the active panel sorts by size and the entries behind
the pinned `..` of a listing have sizes in `[0, 2^31)`, `sort_files` leaves a
permutation of the listing with `..` still at index 0, no non-directory before
a directory, and the non-directories in non-decreasing size order when
ascending, in non-increasing size order when descending. -/
theorem size_sort_orders_files (active p : Panel) (hs : active.sort_by = 1)
    (hwf : p.dotdot_pinned)
    (hsz : ∀ e ∈ p.listing.tail, 0 ≤ e.size ∧ e.size < 2147483648) :
    (sort_files active p).listing.Perm p.listing ∧
    ((sort_files active p).files 0).name = ".." ∧
    ((sort_files active p).listing.Pairwise fun x y => ¬ (x.is_dir = false ∧ y.is_dir = true)) ∧
    (active.sort_order = 0 →
      ((sort_files active p).listing.filter fun e => !e.is_dir).Pairwise
        fun x y => x.size ≤ y.size) ∧
    (active.sort_order ≠ 0 →
      ((sort_files active p).listing.filter fun e => !e.is_dir).Pairwise
        fun x y => y.size ≤ x.size) := by
  have hdirs := sort_files_dirs_first active p hwf
  obtain ⟨h1, h0n, h0d, hn⟩ := hwf
  have hsorted : (qsort (file_compare active) p.listing.tail).Pairwise
      fun x y => file_compare active x y ≤ 0 :=
    qsort_pairwise _ _
      (fun a ha b hb => file_compare_size_total active a b hs (hn a ha) (hn b hb)
        (hsz a ha) (hsz b hb))
      (fun a ha b hb c hc => file_compare_size_trans active a b c hs (hn a ha) (hn b hb)
        (hn c hc) (hsz a ha) (hsz b hb) (hsz c hc))
  have hfilter : (sort_files active p).listing.filter (fun e => !e.is_dir) =
      (qsort (file_compare active) p.listing.tail).filter (fun e => !e.is_dir) := by
    rw [sort_files_listing active p h1, List.filter_cons_of_neg (by simp [h0d])]
  have key : ∀ x y, x ∈ (qsort (file_compare active) p.listing.tail).filter (fun e => !e.is_dir) →
      y ∈ (qsort (file_compare active) p.listing.tail).filter (fun e => !e.is_dir) →
      file_compare active x y ≤ 0 →
      if active.sort_order ≠ 0 then y.size ≤ x.size else x.size ≤ y.size := by
    intro x y hx hy hxy
    have mx := List.mem_filter.mp hx
    have my := List.mem_filter.mp hy
    have lx := (mem_qsort _ _ _).mp mx.1
    have ly := (mem_qsort _ _ _).mp my.1
    have dx : x.is_dir = false := by simpa using mx.2
    have dy : y.is_dir = false := by simpa using my.2
    rw [file_compare_size_le_iff active x y hs (hn x lx) (hn y ly) (hsz x lx) (hsz y ly)] at hxy
    simp only [dx, dy, Bool.false_eq_true, false_and, true_and, false_or] at hxy
    exact hxy
  refine ⟨sort_files_listing_perm active p, ?_, ?_, ?_, ?_⟩
  · rw [sort_files_files_zero, h0n]
  · refine hdirs.imp ?_
    intro x y hxy hc
    rw [hxy hc.1] at hc
    exact absurd hc.2 (by decide)
  · intro ho
    rw [hfilter]
    refine List.Pairwise.imp_of_mem ?_ (hsorted.filter _)
    intro x y hx hy hxy
    have := key x y hx hy hxy
    rw [if_neg (by simp [ho])] at this
    exact this
  · intro ho
    rw [hfilter]
    refine List.Pairwise.imp_of_mem ?_ (hsorted.filter _)
    intro x y hx hy hxy
    have := key x y hx hy hxy
    rw [if_pos ho] at this
    exact this

/-- Witness for C6: the scenario of the specification. In `/tmp/a` with
`b.txt` (100 bytes), `c.txt` (50 bytes) and the directory `d`, the key `s`
gives the order `.., d, c.txt, b.txt` and a following `r` gives
`.., d, b.txt, c.txt`. -/
theorem size_sort_orders_files_witness :
    ((startup sim fs_sizes).left_panel.by_size.sort_by = 1 ∧
      (startup sim fs_sizes).left_panel.dotdot_pinned ∧
      ∀ e ∈ (startup sim fs_sizes).left_panel.listing.tail, 0 ≤ e.size ∧ e.size < 2147483648) ∧
    ((sort_files (startup sim fs_sizes).left_panel.by_size
        (startup sim fs_sizes).left_panel).listing.filter fun e => !e.is_dir).Pairwise
      (fun x y => x.size ≤ y.size) ∧
    (main_loop sim [.ch 's'] (startup sim fs_sizes)).left_panel.names =
      ["..", "d", "c.txt", "b.txt"] ∧
    (main_loop sim [.ch 's', .ch 'r'] (startup sim fs_sizes)).left_panel.names =
      ["..", "d", "b.txt", "c.txt"] :=
  ⟨⟨by decide, by decide, by decide⟩,
    (size_sort_orders_files (startup sim fs_sizes).left_panel.by_size
      (startup sim fs_sizes).left_panel (by decide) (by decide) (by decide)).2.2.2.1 (by decide),
    by decide, by decide⟩


/-- C7 (navigation on failure), counterexample. In `/d` the entry `locked` is
selected; `realpath` resolves `/d/locked` but `opendir` on it fails. After
`change_directory` reports the failure the panel's `current_path` is
`/d/locked`, not `/d`. -/
theorem change_directory_unlistable_moves_path :
    (main_loop sim [.KEY_DOWN] (startup sim fs_locked)).left_panel.current_path = "/d" ∧
    (main_loop sim [.KEY_DOWN] (startup sim fs_locked)).left_panel.selected_file.name = "locked" ∧
    sim.realpath fs_locked "/d/locked" = some "/d/locked" ∧
    sim.opendir fs_locked "/d/locked" = none ∧
    (change_directory sim .left "locked"
      (main_loop sim [.KEY_DOWN] (startup sim fs_locked))).errors =
        ["Impossibile aprire la directory"] ∧
    (change_directory sim .left "locked"
      (main_loop sim [.KEY_DOWN] (startup sim fs_locked))).left_panel.current_path =
        "/d/locked" := by
  refine ⟨?_, ?_, ?_, ?_, ?_, ?_⟩ <;> decide

/-- C7 as amended: if `realpath` fails, `change_directory` shows
"Directory non accessibile" and leaves the panel, and so its `current_path`,
unchanged. If `realpath` succeeds with a path that fits the `current_path`
buffer, `current_path` is the resolved path after the call whether or not the
directory can be listed; when `opendir` then fails, "Impossibile aprire la
directory" is shown and the panel lists the directory entry `..` alone, with
the selection at index 0. -/
theorem change_directory_current_path {σ : Type} (os : Sys σ) (r : PanelRef) (path : String)
    (s : State σ) :
    (os.realpath s.fs (new_path (s.panel r).current_path path) = none →
      (change_directory os r path s).panel r = s.panel r ∧
      (change_directory os r path s).errors = s.errors ++ ["Directory non accessibile"]) ∧
    (∀ real_path, os.realpath s.fs (new_path (s.panel r).current_path path) = some real_path →
      real_path.length < MAX_PATH_LEN →
      ((change_directory os r path s).panel r).current_path = real_path ∧
      (os.opendir s.fs real_path = none →
        (change_directory os r path s).errors =
          s.errors ++ ["Impossibile aprire la directory"] ∧
        ((change_directory os r path s).panel r).num_files = 1 ∧
        ((change_directory os r path s).panel r).names = [".."] ∧
        (((change_directory os r path s).panel r).files 0).is_dir = true ∧
        ((change_directory os r path s).panel r).selected = 0)) := by
  constructor
  · intro h
    unfold change_directory
    simp only [fs_call, h, panel_display_error, panel_call]
    exact ⟨trivial, rfl⟩
  · intro real_path h hlen
    have hcd : change_directory os r path s =
        read_directory os r
          ((s.call (Syscall.realpath (new_path (s.panel r).current_path path))).set_panel r
            { (s.call (Syscall.realpath (new_path (s.panel r).current_path path))).panel r with
              current_path := real_path, selected := 0, scroll_pos := 0 }) := by
      unfold change_directory
      simp only [fs_call, h, if_pos hlen]
    rw [hcd]
    obtain ⟨-, -, h3, h4, -, -, -, -, -, h10, -, -⟩ := read_directory_spec os r
      ((s.call (Syscall.realpath (new_path (s.panel r).current_path path))).set_panel r
        { (s.call (Syscall.realpath (new_path (s.panel r).current_path path))).panel r with
          current_path := real_path, selected := 0, scroll_pos := 0 })
    simp only [panel_set_panel_same] at h3 h4
    refine ⟨h3, ?_⟩
    intro hop
    have hop' : os.opendir
        ((s.call (Syscall.realpath (new_path (s.panel r).current_path path))).set_panel r
          { (s.call (Syscall.realpath (new_path (s.panel r).current_path path))).panel r with
            current_path := real_path, selected := 0, scroll_pos := 0 }).fs
        (((s.call (Syscall.realpath (new_path (s.panel r).current_path path))).set_panel r
          { (s.call (Syscall.realpath (new_path (s.panel r).current_path path))).panel r with
            current_path := real_path, selected := 0, scroll_pos := 0 }).panel r).current_path
        = none := by
      simp only [panel_set_panel_same, fs_set_panel, fs_call]
      exact hop
    have hn := read_directory_unlistable os r _ hop'
    have he := read_directory_unlistable_errors os r _ hop'
    rw [errors_set_panel] at he
    refine ⟨he, hn, ?_, by rw [h10], h4⟩
    rw [names_of_single _ hn, h10]

/-- Witness for C7 as amended: the unlistable directory of the counterexample
and a target that does not resolve. -/
theorem change_directory_current_path_witness :
    (sim.realpath fs_locked (new_path "/d" "missing") = none ∧
      sim.realpath fs_locked (new_path "/d" "locked") = some "/d/locked" ∧
      "/d/locked".length < MAX_PATH_LEN ∧
      sim.opendir fs_locked "/d/locked" = none) ∧
    ((change_directory sim .left "missing" (startup sim fs_locked)).panel .left =
        (startup sim fs_locked).panel .left ∧
      (change_directory sim .left "missing" (startup sim fs_locked)).errors =
        ["Directory non accessibile"]) ∧
    ((change_directory sim .left "locked" (startup sim fs_locked)).panel .left).current_path =
      "/d/locked" ∧
    (change_directory sim .left "locked" (startup sim fs_locked)).errors =
      ["Impossibile aprire la directory"] ∧
    ((change_directory sim .left "locked" (startup sim fs_locked)).panel .left).names = [".."] :=
  ⟨⟨by decide, by decide, by decide, by decide⟩,
    (change_directory_current_path sim .left "missing" (startup sim fs_locked)).1 (by decide),
    ((change_directory_current_path sim .left "locked" (startup sim fs_locked)).2 "/d/locked"
      (by decide) (by decide)).1,
    (((change_directory_current_path sim .left "locked" (startup sim fs_locked)).2 "/d/locked"
      (by decide) (by decide)).2 (by decide)).1,
    (((change_directory_current_path sim .left "locked" (startup sim fs_locked)).2 "/d/locked"
      (by decide) (by decide)).2 (by decide)).2.2.1⟩

/-- C8 (selection follows the file), counterexample. In `/tmp/a` sorted by
name the entry `b.txt` is selected at index 2; after the key `s` the listing is
sorted by size, `b.txt` is still listed, and the selected entry is `c.txt`. -/
theorem sort_toggle_changes_selected_file :
    (main_loop sim [.KEY_DOWN, .KEY_DOWN] (startup sim fs_sizes)).left_panel.names =
      ["..", "d", "b.txt", "c.txt"] ∧
    (main_loop sim [.KEY_DOWN, .KEY_DOWN] (startup sim fs_sizes)).left_panel.selected = 2 ∧
    (main_loop sim [.KEY_DOWN, .KEY_DOWN] (startup sim fs_sizes)).left_panel.selected_file.name =
      "b.txt" ∧
    (main_loop sim [.KEY_DOWN, .KEY_DOWN, .ch 's'] (startup sim fs_sizes)).left_panel.names =
      ["..", "d", "c.txt", "b.txt"] ∧
    (main_loop sim [.KEY_DOWN, .KEY_DOWN, .ch 's'] (startup sim fs_sizes)).left_panel.selected = 2 ∧
    (main_loop sim [.KEY_DOWN, .KEY_DOWN, .ch 's']
      (startup sim fs_sizes)).left_panel.selected_file.name = "c.txt" := by
  refine ⟨?_, ?_, ?_, ?_, ?_, ?_⟩ <;> decide

/-- C8 as amended: the selection keeps its index, not its file. The key `s`
leaves `selected` and `num_files` of the active panel unchanged, and a refresh
(`read_directory`) whose new listing still reaches the old index leaves
`selected` unchanged; the selected entry is whatever the new order puts at that
index. -/
theorem selection_keeps_index {σ : Type} (os : Sys σ) (s : State σ) :
    (((handle_input os (.ch 's') s).panel s.active_panel).selected =
        (s.panel s.active_panel).selected ∧
      ((handle_input os (.ch 's') s).panel s.active_panel).num_files =
        (s.panel s.active_panel).num_files) ∧
    (∀ r : PanelRef,
      (s.panel r).selected < (((read_directory os r s).panel r).num_files : Int) →
        ((read_directory os r s).panel r).selected = (s.panel r).selected ∧
        ((read_directory os r s).panel r).selected_file =
          ((read_directory os r s).panel r).files (s.panel r).selected.toNat) := by
  refine ⟨?_, ?_⟩
  · have h := toggle_frame os s 's' (Or.inl rfl)
    exact ⟨h.2.2, h.1⟩
  · intro r _
    have h := (read_directory_spec os r s).2.2.2.1
    refine ⟨h, ?_⟩
    unfold Panel.selected_file
    rw [h]

/-- Witness for C8 as amended: the state of the counterexample. -/
theorem selection_keeps_index_witness :
    ((main_loop sim [.KEY_DOWN, .KEY_DOWN] (startup sim fs_sizes)).panel .left).selected <
      (((read_directory sim .left
        (main_loop sim [.KEY_DOWN, .KEY_DOWN] (startup sim fs_sizes))).panel .left).num_files : Int)
    ∧ ((read_directory sim .left
        (main_loop sim [.KEY_DOWN, .KEY_DOWN] (startup sim fs_sizes))).panel .left).selected = 2 :=
  ⟨by decide,
    ((selection_keeps_index sim (main_loop sim [.KEY_DOWN, .KEY_DOWN] (startup sim fs_sizes))).2
      .left (by decide)).1.trans (by decide)⟩


/-- C9 (name sort reversal), counterexample. `/c` holds `a.txt` and `A.txt`,
which `strcasecmp` calls equal. Sorted by name, the files come out as
`a.txt, A.txt` ascending and as `a.txt, A.txt` descending as well (also after
the key `r`): the descending sequence is not the reverse of the ascending one. -/
theorem name_sort_tie_not_reversed :
    strcasecmp "a.txt" "A.txt" = 0 ∧
    (((sort_files (startup sim fs_case).left_panel
        (startup sim fs_case).left_panel).listing.tail.filter fun e => !e.is_dir).map
      FileEntry.name) = ["a.txt", "A.txt"] ∧
    (((sort_files (startup sim fs_case).left_panel.descending
        (startup sim fs_case).left_panel).listing.tail.filter fun e => !e.is_dir).map
      FileEntry.name) = ["a.txt", "A.txt"] ∧
    ((sort_files (startup sim fs_case).left_panel.descending
        (startup sim fs_case).left_panel).listing.tail.filter fun e => !e.is_dir) ≠
      ((sort_files (startup sim fs_case).left_panel
        (startup sim fs_case).left_panel).listing.tail.filter fun e => !e.is_dir).reverse ∧
    (main_loop sim [.ch 'r'] (startup sim fs_case)).left_panel.names =
      ["..", "a.txt", "A.txt"] := by
  refine ⟨?_, ?_, ?_, ?_, ?_⟩ <;> decide

/-- C9 as amended: for a listing in which no entry behind index 0 is named
`..` and no two distinct entries of the same directory-ness have names that
`strcasecmp` calls equal, sorting by name in descending order gives the
directories in exactly the reverse of their ascending order, and likewise the
non-directories. -/
theorem name_sort_descending_reverses (asc desc p : Panel)
    (ha : asc.sort_by = 0) (ha' : asc.sort_order = 0)
    (hd : desc.sort_by = 0) (hd' : desc.sort_order ≠ 0)
    (hn : ∀ e ∈ p.listing.tail, e.name ≠ "..")
    (hdist : ∀ x ∈ p.listing.tail, ∀ y ∈ p.listing.tail,
      x.is_dir = y.is_dir → strcasecmp x.name y.name = 0 → x = y) :
    ((sort_files desc p).listing.tail.filter fun e => e.is_dir) =
      ((sort_files asc p).listing.tail.filter fun e => e.is_dir).reverse ∧
    ((sort_files desc p).listing.tail.filter fun e => !e.is_dir) =
      ((sort_files asc p).listing.tail.filter fun e => !e.is_dir).reverse := by
  rw [sort_files_listing_tail, sort_files_listing_tail]
  exact ⟨name_sort_reverse_filter asc desc _ _ true (fun _ h => h) ha ha' hd hd' hn hdist,
    name_sort_reverse_filter asc desc _ _ false (fun e h => by simpa using h) ha ha' hd hd' hn
      hdist⟩

/-- Witness for C9 as amended: the listing of `/tmp/a`. -/
theorem name_sort_descending_reverses_witness :
    ((∀ e ∈ (startup sim fs_sizes).left_panel.listing.tail, e.name ≠ "..") ∧
      ∀ x ∈ (startup sim fs_sizes).left_panel.listing.tail,
        ∀ y ∈ (startup sim fs_sizes).left_panel.listing.tail,
          x.is_dir = y.is_dir → strcasecmp x.name y.name = 0 → x = y) ∧
    (((sort_files (startup sim fs_sizes).left_panel.descending
        (startup sim fs_sizes).left_panel).listing.tail.filter fun e => !e.is_dir) =
      ((sort_files (startup sim fs_sizes).left_panel
        (startup sim fs_sizes).left_panel).listing.tail.filter fun e => !e.is_dir).reverse) ∧
    (sort_files (startup sim fs_sizes).left_panel.descending
        (startup sim fs_sizes).left_panel).names = ["..", "d", "c.txt", "b.txt"] :=
  ⟨⟨by decide, by decide⟩,
    (name_sort_descending_reverses (startup sim fs_sizes).left_panel
      (startup sim fs_sizes).left_panel.descending (startup sim fs_sizes).left_panel
      (by decide) (by decide) (by decide) (by decide) (by decide) (by decide)).2,
    by decide⟩

/-- C10 (listing well-formedness): after `read_directory`, for every behaviour
of `opendir`, `readdir` and `stat`, the panel has between 1 and 1000 entries,
entry 0 is named `..` and is a directory, every entry behind it is the record
of an enumerated name other than `.` and `..` whose `stat` succeeded and is
itself not named `.` or `..`, and (names being at most 255 bytes, as in a
`struct dirent`) no enumerated name whose `stat` failed is listed. The keys `s`
and `r` keep `num_files` and entry 0 of the active panel. -/
theorem read_directory_well_formed {σ : Type} (os : Sys σ) (r : PanelRef) (s : State σ) :
    1 ≤ ((read_directory os r s).panel r).num_files ∧
    ((read_directory os r s).panel r).num_files ≤ 1000 ∧
    (((read_directory os r s).panel r).files 0).name = ".." ∧
    (((read_directory os r s).panel r).files 0).is_dir = true ∧
    (∀ i, 1 ≤ i → i < ((read_directory os r s).panel r).num_files →
      (((read_directory os r s).panel r).files i).name ≠ "." ∧
      (((read_directory os r s).panel r).files i).name ≠ ".." ∧
      ∃ names, os.opendir s.fs (s.panel r).current_path = some names ∧
        listed os s.fs (s.panel r).current_path names
          (((read_directory os r s).panel r).files i)) ∧
    (∀ names, os.opendir s.fs (s.panel r).current_path = some names →
      (∀ d ∈ names, d.length < MAX_FILENAME_LEN) →
      ∀ d ∈ names, os.stat s.fs (path_join (s.panel r).current_path d) = none →
        ∀ i, 1 ≤ i → i < ((read_directory os r s).panel r).num_files →
          (((read_directory os r s).panel r).files i).name ≠ d) ∧
    (∀ k : Char, k = 's' ∨ k = 'r' →
      ((handle_input os (.ch k) s).panel s.active_panel).num_files =
        (s.panel s.active_panel).num_files ∧
      ((handle_input os (.ch k) s).panel s.active_panel).files 0 =
        (s.panel s.active_panel).files 0) := by
  obtain ⟨-, -, -, -, -, -, -, h8, h9, h10, h11, -⟩ := read_directory_spec os r s
  have hmem : ∀ i, 1 ≤ i → i < ((read_directory os r s).panel r).num_files →
      ∃ names, os.opendir s.fs (s.panel r).current_path = some names ∧
        listed os s.fs (s.panel r).current_path names
          (((read_directory os r s).panel r).files i) := by
    intro i hi1 hi2
    exact h11 _ ((mem_listing_tail _ _).mpr ⟨i, hi1, hi2, rfl⟩)
  refine ⟨h8, h9, by rw [h10], by rw [h10], ?_, ?_, ?_⟩
  · intro i hi1 hi2
    obtain ⟨names, hop, hl⟩ := hmem i hi1 hi2
    have hne := listed_name_ne os _ _ _ _ hl
    exact ⟨hne.1, hne.2, names, hop, hl⟩
  · intro names hop hshort d _ hstat i hi1 hi2 hname
    obtain ⟨names', hop', d', hd', -, -, st, hst, he⟩ := hmem i hi1 hi2
    rw [hop] at hop'
    cases hop'
    rw [he] at hname
    have hsame : d' = d := by
      have h1 : (make_entry d' st).name = snprintf MAX_FILENAME_LEN d' := rfl
      rw [h1, snprintf_short _ _ (hshort d' hd')] at hname
      exact hname
    rw [hsame, hstat] at hst
    exact absurd hst (by simp)
  · intro k hk
    have h := toggle_frame os s k hk
    exact ⟨h.1, h.2.1⟩

/-- Witness for C10: the listing of `/tmp/a`. -/
theorem read_directory_well_formed_witness :
    ((read_directory sim .left (startup sim fs_sizes)).panel .left).names =
      ["..", "d", "b.txt", "c.txt"] ∧
    1 ≤ ((read_directory sim .left (startup sim fs_sizes)).panel .left).num_files ∧
    ((read_directory sim .left (startup sim fs_sizes)).panel .left).num_files ≤ 1000 :=
  ⟨by decide, (read_directory_well_formed sim .left (startup sim fs_sizes)).1,
    (read_directory_well_formed sim .left (startup sim fs_sizes)).2.1⟩

/-- C11 (size and time comparisons), evaluated at failing inputs. Sorting by
size, ascending, a 4 GiB file against an empty file (both regular files, none
named `..`) compares as `0` although the sizes differ, and a 2 GiB file against
the empty file compares negative although it is larger: the 64-bit difference
does not survive the conversion to `int`. With descending order the result for
the 2 GiB file is negative as well, so the sign is not inverted. The same
happens for modification times more than `2^31` seconds apart. As a result
`qsort` leaves the 2 GiB file in front of the empty file in ascending order. -/
theorem size_compare_truncates :
    (entry_4g.is_dir = entry_empty.is_dir ∧ entry_2g.is_dir = entry_empty.is_dir ∧
      entry_empty.size < entry_2g.size ∧ entry_2g.size < entry_4g.size ∧
      entry_empty.mtime < entry_2g.mtime) ∧
    file_compare (startup sim fs_single).left_panel.by_size entry_4g entry_empty = 0 ∧
    file_compare (startup sim fs_single).left_panel.by_size entry_2g entry_empty =
      -2147483648 ∧
    file_compare (startup sim fs_single).left_panel.by_size.descending entry_2g entry_empty =
      -2147483648 ∧
    file_compare (startup sim fs_single).left_panel.by_time entry_2g entry_empty =
      -2094967296 ∧
    qsort (file_compare (startup sim fs_single).left_panel.by_size) [entry_2g, entry_empty] =
      [entry_2g, entry_empty] := by
  refine ⟨⟨?_, ?_, ?_, ?_, ?_⟩, ?_, ?_, ?_, ?_, ?_⟩ <;> decide

/-- C12 (scroll consistency): for every panel and every height of at least 1,
after the adjustment at the start of `draw_panel` the selection lies in the
window, `scroll_pos ≤ selected < scroll_pos + height`, and `selected` itself is
untouched; if the selection already lay in the window, `scroll_pos` is
unchanged, so a second adjustment changes nothing; and the new `scroll_pos` is
the same for any two calls that agree on `selected`, the old `scroll_pos` and
the height, whatever the other fields and arguments are. -/
theorem scroll_adjustment_consistent (panel : Panel) (x y width height : Int)
    (hh : 1 ≤ height) :
    ((draw_panel panel x y width height).scroll_pos ≤ panel.selected ∧
      panel.selected < (draw_panel panel x y width height).scroll_pos + height) ∧
    (draw_panel panel x y width height).selected = panel.selected ∧
    (panel.scroll_pos ≤ panel.selected ∧ panel.selected < panel.scroll_pos + height →
      (draw_panel panel x y width height).scroll_pos = panel.scroll_pos) ∧
    (draw_panel (draw_panel panel x y width height) x y width height).scroll_pos =
      (draw_panel panel x y width height).scroll_pos ∧
    (∀ (other : Panel) (x' y' width' : Int),
      other.selected = panel.selected → other.scroll_pos = panel.scroll_pos →
        (draw_panel other x' y' width' height).scroll_pos =
          (draw_panel panel x y width height).scroll_pos) := by
  have window : ∀ q : Panel, ∀ a b c : Int,
      (draw_panel q a b c height).scroll_pos ≤ q.selected ∧
        q.selected < (draw_panel q a b c height).scroll_pos + height ∧
        (draw_panel q a b c height).selected = q.selected := by
    intro q a b c
    unfold draw_panel
    dsimp only
    split
    · refine ⟨le_refl _, ?_, rfl⟩
      show q.selected < q.selected + height
      omega
    · split
      · refine ⟨?_, ?_, rfl⟩
        · show q.selected - height + 1 ≤ q.selected
          omega
        · show q.selected < q.selected - height + 1 + height
          omega
      · refine ⟨?_, ?_, rfl⟩ <;> omega
  have fixed : ∀ q : Panel, ∀ a b c : Int,
      q.scroll_pos ≤ q.selected → q.selected < q.scroll_pos + height →
        (draw_panel q a b c height).scroll_pos = q.scroll_pos := by
    intro q a b c h1 h2
    unfold draw_panel
    dsimp only
    rw [if_neg (by omega), if_neg (by omega)]
  obtain ⟨w1, w2, w3⟩ := window panel x y width
  refine ⟨⟨w1, w2⟩, w3, fun h => fixed panel x y width h.1 h.2, ?_, ?_⟩
  · exact fixed _ x y width (by rw [w3]; exact w1) (by rw [w3]; exact w2)
  · intro other x' y' width' hsel hscr
    unfold draw_panel
    dsimp only
    rw [hsel, hscr]
    split
    · rfl
    · split
      · rfl
      · exact hscr

/-- Witness for C12: the last of the four entries of `/tmp/a` is selected and
the window has two rows, as in a terminal of six rows; the window moves to
`scroll_pos = 2`. -/
theorem scroll_adjustment_consistent_witness :
    (main_loop sim [.KEY_DOWN, .KEY_DOWN, .KEY_DOWN] (startup sim fs_sizes)).left_panel.selected
      = 3 ∧
    (draw_interface 6 80
      (main_loop sim [.KEY_DOWN, .KEY_DOWN, .KEY_DOWN] (startup sim fs_sizes))).left_panel.scroll_pos
      = 2 ∧
    (draw_panel
      (main_loop sim [.KEY_DOWN, .KEY_DOWN, .KEY_DOWN] (startup sim fs_sizes)).left_panel
      0 1 40 2).scroll_pos ≤
      (main_loop sim [.KEY_DOWN, .KEY_DOWN, .KEY_DOWN] (startup sim fs_sizes)).left_panel.selected :=
  ⟨by decide, by decide,
    (scroll_adjustment_consistent
      (main_loop sim [.KEY_DOWN, .KEY_DOWN, .KEY_DOWN] (startup sim fs_sizes)).left_panel
      0 1 40 2 (by decide)).1.1⟩

end Tyc
